import Mathlib

/-!
Verification of the Aspiro AI backend (Flask + SQLAlchemy web service).

This development shallowly embeds the request-handling layer of the backend:
the data model (`server/models.py`), the helpers (`server/utils.py`), the
prompt builders (`server/prompts.py`) and the HTTP routes
(`server/routes/auth_routes.py`, `server/routes/path_routes.py`,
`server/routes/ai_routes.py`).  External libraries (SQLAlchemy, bcrypt, JWT,
pypdf, python-docx, the Gemini client, the Python `json` module and UTF-8
codec) are modelled at their interface: pure inputs describe what the library
would yield, and library-internal behaviour documented by Python (JSON
serialization, UTF-8 decoding with errors ignored) is given as executable
Lean definitions.

Definitions come first, then the theorems settling the claims.
-/

set_option maxRecDepth 4096

namespace Aspiro

/-! ### JSON values

Model of Python's JSON-compatible data as handled by `json.dumps` /
`json.loads` in `server/models.py` (`SavedPath.path_details_json`).
Numbers are modelled as integers; object member order is the Python dict
insertion order. -/

mutual
inductive JVal where
  | null : JVal
  | bool (b : Bool) : JVal
  | num (n : Int) : JVal
  | str (s : String) : JVal
  | arr (elems : JElems) : JVal
  | obj (membs : JMembs) : JVal
  deriving DecidableEq, Repr
inductive JElems where
  | nil : JElems
  | cons (v : JVal) (rest : JElems) : JElems
  deriving DecidableEq, Repr
inductive JMembs where
  | nil : JMembs
  | cons (k : String) (v : JVal) (rest : JMembs) : JMembs
  deriving DecidableEq, Repr
end

/-- Decimal digits of a natural number, most significant first
(the digits `json.dumps` / Python `repr` emit for a non-negative int). -/
def natDigits (n : Nat) : List Char :=
  if n < 10 then [Nat.digitChar n]
  else natDigits (n / 10) ++ [Nat.digitChar (n % 10)]
termination_by n
decreasing_by exact Nat.div_lt_self (by omega) (by omega)

/-- Characters `json.dumps` emits for an integer. -/
def intChars (n : Int) : List Char :=
  if n < 0 then '-' :: natDigits n.natAbs else natDigits n.toNat

/-- Escape of one character inside a JSON string literal, following Python's
`json.dumps`: quote, backslash and the common control characters use
two-character escapes, the remaining control characters use a `\u00XX`
escape.  (Python's default `ensure_ascii` additionally escapes non-ASCII
characters; that transformation is omitted here as it does not affect the
serialize/deserialize round trip.) -/
def escChar (c : Char) : List Char :=
  if c = '\\' then ['\\', '\\']
  else if c = '"' then ['\\', '"']
  else if c = '\n' then ['\\', 'n']
  else if c = '\t' then ['\\', 't']
  else if c = '\r' then ['\\', 'r']
  else if c.toNat = 8 then ['\\', 'b']
  else if c.toNat = 12 then ['\\', 'f']
  else if c.toNat < 32 then
    '\\' :: 'u' :: '0' :: '0' ::
      [Nat.digitChar (c.toNat / 16), Nat.digitChar (c.toNat % 16)]
  else [c]

/-- Escape of a whole string body. -/
def escList : List Char → List Char
  | [] => []
  | c :: cs => escChar c ++ escList cs

mutual
/-- Characters of the `json.dumps` serialization of a value
(default separators: `", "` between items, `": "` after keys). -/
def printV : JVal → List Char
  | .null => "null".data
  | .bool true => "true".data
  | .bool false => "false".data
  | .num n => intChars n
  | .str s => '"' :: (escList s.data ++ ['"'])
  | .arr items => '[' :: (printElems items ++ [']'])
  | .obj fields => '{' :: (printMembs fields ++ ['}'])
/-- Serialization of array elements, separated by `", "`. -/
def printElems : JElems → List Char
  | .nil => []
  | .cons v .nil => printV v
  | .cons v rest => printV v ++ ',' :: ' ' :: printElems rest
/-- Serialization of object members, separated by `", "`, with `": "` after
each key. -/
def printMembs : JMembs → List Char
  | .nil => []
  | .cons k v .nil => '"' :: (escList k.data ++ '"' :: ':' :: ' ' :: printV v)
  | .cons k v rest =>
    ('"' :: (escList k.data ++ '"' :: ':' :: ' ' :: printV v)) ++ ',' :: ' ' :: printMembs rest
end

/-- Model of `json.dumps`. -/
def dumps (v : JVal) : String := String.mk (printV v)

/-- Value of a hexadecimal digit character, if it is one. -/
def hexVal (c : Char) : Option Nat :=
  if 48 ≤ c.toNat ∧ c.toNat ≤ 57 then some (c.toNat - 48)
  else if 97 ≤ c.toNat ∧ c.toNat ≤ 102 then some (c.toNat - 87)
  else if 65 ≤ c.toNat ∧ c.toNat ≤ 70 then some (c.toNat - 55)
  else none

/-- Accumulating decimal-digit reader: consumes a maximal run of digits. -/
def parseDigits (acc : Nat) : List Char → Nat × List Char
  | [] => (acc, [])
  | c :: rest =>
    if c.isDigit then parseDigits (acc * 10 + (c.toNat - 48)) rest
    else (acc, c :: rest)

/-- Reads a non-empty run of decimal digits as a natural number. -/
def parsePosInt : List Char → Option (Nat × List Char)
  | [] => none
  | c :: rest => if c.isDigit then some (parseDigits (c.toNat - 48) rest) else none

/-- Unescape of a two-character escape (the character after the backslash). -/
def unescChar (e : Char) : Option Char :=
  if e = '"' then some '"'
  else if e = '\\' then some '\\'
  else if e = '/' then some '/'
  else if e = 'n' then some '\n'
  else if e = 't' then some '\t'
  else if e = 'r' then some '\r'
  else if e = 'b' then some (Char.ofNat 8)
  else if e = 'f' then some (Char.ofNat 12)
  else none

mutual
/-- Reads a JSON string body (after the opening quote) up to and including
the closing quote, undoing the escapes of `escChar`. -/
def parseStrBody : List Char → Option (List Char × List Char)
  | [] => none
  | c :: rest =>
    if c = '"' then some ([], rest)
    else if c = '\\' then parseEsc rest
    else (parseStrBody rest).map fun p => (c :: p.1, p.2)
/-- Reads the remainder of an escape sequence (after the backslash). -/
def parseEsc : List Char → Option (List Char × List Char)
  | [] => none
  | 'u' :: h1 :: h2 :: h3 :: h4 :: rest =>
    match hexVal h1, hexVal h2, hexVal h3, hexVal h4 with
    | some a, some b, some c2, some d =>
      (parseStrBody rest).map fun p =>
        (Char.ofNat (((a * 16 + b) * 16 + c2) * 16 + d) :: p.1, p.2)
    | _, _, _, _ => none
  | e :: rest =>
    match unescChar e with
    | some u => (parseStrBody rest).map fun p => (u :: p.1, p.2)
    | none => none
end

mutual
/-- Fuelled reader for one JSON value in the canonical format produced by
`printV`; models `json.loads` on the strings the application stores
(failure on other inputs models a `JSONDecodeError`). -/
def parseV : Nat → List Char → Option (JVal × List Char)
  | 0, _ => none
  | fuel + 1, input =>
    match input with
    | [] => none
    | c :: rest =>
      if c.isDigit then
        (parsePosInt (c :: rest)).map fun p => (JVal.num (p.1 : Int), p.2)
      else if c = '-' then
        (parsePosInt rest).map fun p => (JVal.num (-(p.1 : Int)), p.2)
      else if c = '"' then
        (parseStrBody rest).map fun p => (JVal.str (String.mk p.1), p.2)
      else if c = '[' then
        if rest.head? = some ']' then some (JVal.arr JElems.nil, rest.drop 1)
        else (parseElems fuel rest).map fun p => (JVal.arr p.1, p.2)
      else if c = '{' then
        if rest.head? = some '}' then some (JVal.obj JMembs.nil, rest.drop 1)
        else (parseMembs fuel rest).map fun p => (JVal.obj p.1, p.2)
      else if List.isPrefixOf "null".data (c :: rest) then
        some (JVal.null, (c :: rest).drop 4)
      else if List.isPrefixOf "true".data (c :: rest) then
        some (JVal.bool true, (c :: rest).drop 4)
      else if List.isPrefixOf "false".data (c :: rest) then
        some (JVal.bool false, (c :: rest).drop 5)
      else none
/-- Reads the elements of a non-empty array, consuming the closing `]`. -/
def parseElems : Nat → List Char → Option (JElems × List Char)
  | 0, _ => none
  | fuel + 1, input =>
    match parseV fuel input with
    | none => none
    | some (v, rest) =>
      if rest.head? = some ']' then some (JElems.cons v JElems.nil, rest.drop 1)
      else
        match rest with
        | ',' :: ' ' :: rest2 =>
          match parseElems fuel rest2 with
          | some (es, rest3) => some (JElems.cons v es, rest3)
          | none => none
        | _ => none
/-- Reads the members of a non-empty object, consuming the closing `}`. -/
def parseMembs : Nat → List Char → Option (JMembs × List Char)
  | 0, _ => none
  | fuel + 1, input =>
    match input with
    | '"' :: rest =>
      match parseStrBody rest with
      | none => none
      | some (kcs, rest1) =>
        match rest1 with
        | ':' :: ' ' :: rest2 =>
          match parseV fuel rest2 with
          | none => none
          | some (v, rest3) =>
            if rest3.head? = some '}' then
              some (JMembs.cons (String.mk kcs) v JMembs.nil, rest3.drop 1)
            else
              match rest3 with
              | ',' :: ' ' :: rest4 =>
                match parseMembs fuel rest4 with
                | some (ms, rest5) => some (JMembs.cons (String.mk kcs) v ms, rest5)
                | none => none
              | _ => none
        | _ => none
    | _ => none
end

/-- Model of `json.loads` on stored `path_details_json` text: `none` models a
`JSONDecodeError`. -/
def loads (s : String) : Option JVal :=
  match parseV (s.data.length + 1) s.data with
  | some (v, []) => some v
  | _ => none

mutual
/-- Fuel needed by `parseV` to read back the serialization of a value. -/
def sizeV : JVal → Nat
  | .arr es => sizeE es + 1
  | .obj ms => sizeM ms + 1
  | _ => 1
/-- Fuel needed by `parseElems` for a serialized element list. -/
def sizeE : JElems → Nat
  | .nil => 1
  | .cons v es => sizeV v + sizeE es
/-- Fuel needed by `parseMembs` for a serialized member list. -/
def sizeM : JMembs → Nat
  | .nil => 1
  | .cons _ v ms => sizeV v + sizeM ms
end

/-- First value bound to a key in a JSON object's member list
(Python dicts have distinct keys, so this is the value of the key). -/
def JMembs.lookup : JMembs → String → Option JVal
  | .nil, _ => none
  | .cons k v rest, key => if k = key then some v else JMembs.lookup rest key

/-- Whether a key appears at all in a JSON object's member list. -/
def JMembs.hasKey (ms : JMembs) (key : String) : Bool := (ms.lookup key).isSome

/-- JSON array elements from a Lean list (how `jsonify` renders a Python
list). -/
def jElemsOfList : List JVal → JElems
  | [] => .nil
  | v :: vs => .cons v (jElemsOfList vs)

/-- Lean list of the elements of a JSON array. -/
def jElemsToList : JElems → List JVal
  | .nil => []
  | .cons v vs => v :: jElemsToList vs

/-- Elements of a response body when it is a JSON array. -/
def arrElemsOf : JVal → List JVal
  | .arr es => jElemsToList es
  | _ => []

/-! ### Validation helpers (`server/utils.py`) -/

/-- Characters admitted by the local part `[a-zA-Z0-9_.+-]` of
`EMAIL_REGEX`. -/
def isEmailLocalChar (c : Char) : Bool :=
  c.isAlpha || c.isDigit || c = '_' || c = '.' || c = '+' || c = '-'

/-- Characters admitted by the first domain label `[a-zA-Z0-9-]` of
`EMAIL_REGEX`. -/
def isDomainChar (c : Char) : Bool :=
  c.isAlpha || c.isDigit || c = '-'

/-- Characters admitted by the domain tail `[a-zA-Z0-9-.]` of
`EMAIL_REGEX`. -/
def isDomainTailChar (c : Char) : Bool :=
  c.isAlpha || c.isDigit || c = '-' || c = '.'

/-- Match of the domain part `[a-zA-Z0-9-]+\.[a-zA-Z0-9-.]+` of
`EMAIL_REGEX`: the label before the first dot must be a non-empty run of
label characters and the rest after that dot non-empty tail characters
(the label class excludes dots, so backtracking can only pick the first
dot). -/
def matchDomainChars (cs : List Char) : Bool :=
  let pre := cs.takeWhile (fun c => c ≠ '.')
  let rest := cs.dropWhile (fun c => c ≠ '.')
  match rest with
  | '.' :: post =>
    !pre.isEmpty && pre.all isDomainChar && !post.isEmpty && post.all isDomainTailChar
  | _ => false

/-- Match of `EMAIL_REGEX` (`^[a-zA-Z0-9_.+-]+@[a-zA-Z0-9-]+\.[a-zA-Z0-9-.]+$`)
against a character list.  A single trailing newline is allowed because
Python's `$` anchor also matches just before a final newline; the `@`
splitting the match must be the first `@` since no character class admits
`@`. -/
def emailRegexMatch (cs : List Char) : Bool :=
  let cs := if cs.getLast? = some '\n' then cs.dropLast else cs
  let localPart := cs.takeWhile (fun c => c ≠ '@')
  let rest := cs.dropWhile (fun c => c ≠ '@')
  match rest with
  | '@' :: domain =>
    !localPart.isEmpty && localPart.all isEmailLocalChar && matchDomainChars domain
  | _ => false

/-- Model of `is_valid_email`: the email is truthy (non-empty) and matches
`EMAIL_REGEX`. -/
def is_valid_email (email : String) : Bool :=
  email ≠ "" && emailRegexMatch email.data

/-- Length caps from `server/utils.py`. -/
def MAX_INPUT_STRING_LENGTH : Nat := 255

/-- Length cap for the target role form field. -/
def MAX_TARGET_ROLE_LENGTH : Nat := 150

/-- Length cap for the career field. -/
def MAX_CAREER_FIELD_LENGTH : Nat := 150

/-- Length cap for a saved path's name. -/
def MAX_PATH_NAME_LENGTH : Nat := 200

/-- Part of the filename after the last dot: `filename.rsplit('.', 1)[1]`
(meaningful when the filename contains a dot). -/
def rsplitExt (cs : List Char) : List Char :=
  (cs.reverse.takeWhile (fun c => c ≠ '.')).reverse

/-- Model of Python `str.lower` restricted to its ASCII action (the
extensions configured and compared here are ASCII). -/
def strLower (s : String) : String := String.mk (s.data.map Char.toLower)

/-- Model of `allowed_file`: the filename contains a dot and the lowercased
part after the last dot is in the configured allowed set (the set is
modelled as a list). -/
def allowed_file (filename : String) (allowed_extensions_config : List String) : Bool :=
  filename.data.contains '.' &&
    allowed_extensions_config.contains (strLower (String.mk (rsplitExt filename.data)))

/-- Model of Python `str.endswith`: the suffix, reversed, starts the
reversed string. -/
def pyEndsWith (s suffix : String) : Bool :=
  List.isPrefixOf suffix.data.reverse s.data.reverse

/-! ### UTF-8 decoding with `errors='ignore'`

Model of `bytes.decode('utf-8', errors='ignore')` used by the `.txt` branch
of `extract_text_from_file`: a maximal valid sequence at the head is decoded
to its code point; otherwise the maximal subpart of an ill-formed sequence
(at least the first byte) is dropped and decoding continues.  Decoding never
fails. -/

/-- Whether a byte is a UTF-8 continuation byte. -/
def isCont (b : Nat) : Bool := 128 ≤ b && b ≤ 191

/-- Admissible first continuation byte after a three-byte lead. -/
def cont1Ok3 (b b2 : Nat) : Bool :=
  if b = 224 then 160 ≤ b2 && b2 ≤ 191
  else if b = 237 then 128 ≤ b2 && b2 ≤ 159
  else isCont b2

/-- Admissible first continuation byte after a four-byte lead. -/
def cont1Ok4 (b b2 : Nat) : Bool :=
  if b = 240 then 144 ≤ b2 && b2 ≤ 191
  else if b = 244 then 128 ≤ b2 && b2 ≤ 143
  else isCont b2

/-- One decoding step at a lead byte `b` followed by `rest`: the decoded
character when a well-formed sequence starts here, and how many bytes of
`rest` belong to the consumed (or dropped) subpart.  A dropped maximal
subpart is the lead byte plus its valid continuation bytes. -/
def utf8Step (b : Nat) (rest : List Nat) : Option Char × Nat :=
  if b < 128 then (some (Char.ofNat b), 0)
  else if 194 ≤ b && b ≤ 223 then
    match rest with
    | [] => (none, 0)
    | b2 :: _ =>
      if isCont b2 then (some (Char.ofNat ((b - 192) * 64 + (b2 - 128))), 1)
      else (none, 0)
  else if 224 ≤ b && b ≤ 239 then
    match rest with
    | [] => (none, 0)
    | b2 :: rest2 =>
      if cont1Ok3 b b2 then
        match rest2 with
        | [] => (none, 1)
        | b3 :: _ =>
          if isCont b3 then
            (some (Char.ofNat (((b - 224) * 4096 + (b2 - 128) * 64) + (b3 - 128))), 2)
          else (none, 1)
      else (none, 0)
  else if 240 ≤ b && b ≤ 244 then
    match rest with
    | [] => (none, 0)
    | b2 :: rest2 =>
      if cont1Ok4 b b2 then
        match rest2 with
        | [] => (none, 1)
        | b3 :: rest3 =>
          if isCont b3 then
            match rest3 with
            | [] => (none, 2)
            | b4 :: _ =>
              if isCont b4 then
                (some (Char.ofNat ((((b - 240) * 262144 + (b2 - 128) * 4096) +
                  (b3 - 128) * 64) + (b4 - 128))), 3)
              else (none, 2)
          else (none, 1)
      else (none, 0)
  else (none, 0)

/-- Fuelled decoding loop: every iteration consumes at least one byte, so a
fuel equal to the input length always suffices. -/
def utf8DecodeGo : Nat → List Nat → List Char
  | 0, _ => []
  | _ + 1, [] => []
  | fuel + 1, b :: rest =>
    match utf8Step b rest with
    | (some c, k) => c :: utf8DecodeGo fuel (rest.drop k)
    | (none, k) => utf8DecodeGo fuel (rest.drop k)

/-- UTF-8 decoding of a byte list with ill-formed subparts dropped. -/
def utf8DecodeIgnore (bytes : List Nat) : List Char :=
  utf8DecodeGo bytes.length bytes

/-! ### File uploads and text extraction (`server/utils.py`) -/

/-- An uploaded file as the routes see it.  The raw bytes model
`file.read()`; `pdfPages` models what `pypdf.PdfReader` would yield on these
bytes (`none`: the library raises; `some pages`: per-page results of
`page.extract_text()`, which may be `None`), and `docxParas` models
`docx.Document` paragraphs likewise. -/
structure FileUpload where
  filename : String
  content : List Nat
  pdfPages : Option (List (Option String))
  docxParas : Option (List String)
  deriving DecidableEq, Repr

/-- Model of `extract_text_from_file`: dispatch on the (case-sensitive)
filename suffix; PDF pages concatenate with `None` pages contributing `""`;
DOCX paragraphs concatenate with a newline each; `.txt` decodes the bytes as
UTF-8 ignoring errors; unsupported suffixes and library failures yield
`none`. -/
def extract_text_from_file (f : FileUpload) : Option String :=
  if pyEndsWith f.filename ".pdf" then
    match f.pdfPages with
    | none => none
    | some pages => some (String.join (pages.map (fun t => t.getD "")))
  else if pyEndsWith f.filename ".docx" then
    match f.docxParas with
    | none => none
    | some paras => some (String.join (paras.map (fun t => t ++ "\n")))
  else if pyEndsWith f.filename ".txt" then
    some (String.mk (utf8DecodeIgnore f.content))
  else none

/-! ### AI content generation (`server/utils.py`) -/

/-- One part of a Gemini response; `text = none` models a part without a
`text` attribute. -/
structure GenaiPart where
  text : Option String
  deriving DecidableEq, Repr

/-- The `prompt_feedback` of a Gemini response.  `block_reason = none`
models a falsy or missing block reason; `block_reason_message` is the
optional human-readable message. -/
structure PromptFeedback where
  block_reason : Option String
  block_reason_message : Option String
  deriving DecidableEq, Repr

/-- A Gemini response object.  `text = none` models a missing `text`
attribute (truthiness of a present one is checked separately). -/
structure GenaiResponse where
  parts : List GenaiPart
  text : Option String
  prompt_feedback : Option PromptFeedback
  deriving DecidableEq, Repr

/-- Outcome of `gemini_model_instance.generate_content(...)` for the request
being handled: the remote call either raises (with the exception's type
name) or returns a response object. -/
inductive CallOutcome where
  | raised (exception_type : String)
  | returned (resp : GenaiResponse)
  deriving DecidableEq, Repr

/-- A raised `AIServiceError`, carrying its message, associated status code
and Python class name. -/
structure AIServiceErrorV where
  message : String
  status_code : Nat
  type_name : String
  deriving DecidableEq, Repr

/-- An `AIServiceUnavailable` (status 503). -/
def aiServiceUnavailable (msg : String) : AIServiceErrorV :=
  ⟨msg, 503, "AIServiceUnavailable"⟩

/-- An `AIContentGenerationError` (status 500). -/
def aiContentGenerationError (msg : String) : AIServiceErrorV :=
  ⟨msg, 500, "AIContentGenerationError"⟩

/-- Text joined from the parts of a response
(`if response.parts: "".join(part.text for part in response.parts if
hasattr(part, 'text'))`). -/
def partsText (resp : GenaiResponse) : String :=
  match resp.parts with
  | [] => ""
  | _ => String.join (resp.parts.filterMap (fun p => p.text))

/-- The body of the `try` block of `generate_ai_content`, given the call
returned a response: yields the generated text, or raises an
`AIContentGenerationError` whose message names the safety block reason when
the response reports one. -/
def generate_ai_content_try_body (resp : GenaiResponse) : Except AIServiceErrorV String :=
  let fromParts := partsText resp
  let generated_text :=
    if fromParts = "" then
      match resp.text with
      | some t => if t ≠ "" then t else fromParts
      | none => fromParts
    else fromParts
  if generated_text ≠ "" then .ok generated_text
  else
    match resp.prompt_feedback with
    | some fb =>
      match fb.block_reason with
      | some reason =>
        let block_reason_msg :=
          match fb.block_reason_message with
          | some m => if m ≠ "" then m else reason
          | none => reason
        .error (aiContentGenerationError
          ("Content generation blocked by AI safety filters: " ++ block_reason_msg))
      | none => .error (aiContentGenerationError "AI response format not recognized or empty.")
    | none => .error (aiContentGenerationError "AI response format not recognized or empty.")

/-- Model of `generate_ai_content`.  The unavailability error is raised
before the `try` block and propagates; everything raised inside the `try`
block — including the blocked-content error constructed there — is caught by
the function's own `except Exception` clause and replaced by a generic
`AIContentGenerationError` naming only the exception type. -/
def generate_ai_content (gemini_model_instance : Option CallOutcome) :
    Except AIServiceErrorV String :=
  match gemini_model_instance with
  | none =>
    .error (aiServiceUnavailable
      "AI service (Gemini model instance) is not configured or unavailable.")
  | some (.raised exception_type) =>
    .error (aiContentGenerationError
      ("AI content generation encountered an error: " ++ exception_type))
  | some (.returned resp) =>
    match generate_ai_content_try_body resp with
    | .ok t => .ok t
    | .error e =>
      .error (aiContentGenerationError
        ("AI content generation encountered an error: " ++ e.type_name))

/-! ### HTTP responses -/

/-- An HTTP response: status code and JSON body. -/
structure ApiResponse where
  status : Nat
  body : JVal
  deriving DecidableEq, Repr

/-- Model of `make_error_response`: body `{"error": message}`, plus a
`details` field when a truthy `details` argument is given. -/
def make_error_response (message : String) (status_code : Nat)
    (details : Option String) : ApiResponse :=
  match details with
  | some d =>
    if d ≠ "" then
      ⟨status_code, .obj (.cons "error" (.str message) (.cons "details" (.str d) .nil))⟩
    else ⟨status_code, .obj (.cons "error" (.str message) .nil)⟩
  | none => ⟨status_code, .obj (.cons "error" (.str message) .nil)⟩

/-- Truthiness of an optional string (Python: missing and `""` are falsy). -/
def truthyStr : Option String → Bool
  | none => false
  | some s => s ≠ ""

/-! ### Data model (`server/models.py`) -/

/-- A row of the `users` table. -/
structure UserRec where
  id : Nat
  email : String
  password_hash : String
  deriving DecidableEq, Repr

/-- A row of the `saved_paths` table; `_path_details_json` is the serialized
text column behind the `path_details_json` property. -/
structure SavedPathRec where
  id : Nat
  path_name : String
  _path_details_json : Option String
  user_id : Nat
  deriving DecidableEq, Repr

/-- The `path_details_json` property setter: `None` is stored as `NULL`,
anything else as its `json.dumps` serialization. -/
def path_details_setter (value : Option JVal) : Option String :=
  match value with
  | none => none
  | some v => some (dumps v)

/-- The `path_details_json` property getter: `NULL` reads as `None`, stored
text is `json.loads`-deserialized with `None` returned when decoding
fails. -/
def path_details_getter (stored : Option String) : Option JVal :=
  match stored with
  | none => none
  | some s => loads s

/-- Rendering of a Python value that may be `None` into response JSON
(`jsonify` maps `None` to JSON `null`, keeping the key present). -/
def pyToJson : Option JVal → JVal
  | none => JVal.null
  | some v => v

/-- Model of `SavedPath.to_dict` as the JSON object `jsonify` renders it to:
all four keys are always present, with the `path_details_json` property's
`None` rendered as `null`. -/
def SavedPathRec.to_dict (p : SavedPathRec) : JMembs :=
  .cons "id" (.num p.id)
    (.cons "path_name" (.str p.path_name)
      (.cons "path_details_json" (pyToJson (path_details_getter p._path_details_json))
        (.cons "user_id" (.num p.user_id) .nil)))

/-! ### Prompt builders (`server/prompts.py`) -/

/-- Model of `get_resume_feedback_prompt`. -/
def get_resume_feedback_prompt (target_role resume_text : String) : List String :=
  ["You are an expert career advisor and resume reviewer.",
   "Analyze the following resume text for the target role for an ATS (Applicant Tracking System) and human recruiter:",
   "Target Role: " ++ target_role ++ "\n\n",
   "Resume Text:\n",
   "```\n",
   resume_text,
   "\n```\n\n",
   "Provide detailed feedback covering these areas:\n" ++
     "1.  **ATS Compatibility Score (1-100):** Estimate how well this resume would pass through an ATS for the target role. Explain your reasoning briefly.",
   "2.  **Strengths:** What are the strongest parts of this resume for this role?",
   "3.  **Areas for Improvement:** What specific sections or points could be improved? Be actionable.",
   "4.  **Keyword Analysis:** Are relevant keywords for the target role present? Suggest missing keywords if any.",
   "5.  **Overall Impression & Suggestions:** Give a final summary and any other critical advice.",
   "\nFormat your response clearly, using markdown for headings and lists."]

/-- Model of `get_role_suggestion_prompt`. -/
def get_role_suggestion_prompt (resume_text : String) : List String :=
  ["You are an expert career counselor and talent acquisition specialist.",
   "Based on the following resume text, identify the top 3-5 most suitable career roles for this individual. ",
   "For each suggested role, provide:",
   "   a. Role Title",
   "   b. A brief explanation (2-3 sentences) why this role is a good fit based on the resume.",
   "   c. Key skills from the resume that align with this role.",
   "   d. Potential industries where this role is common.",
   "\nResume Text:\n",
   "```\n",
   resume_text,
   "\n```\n\n",
   "Consider a diverse range of roles, including those that might be a slight pivot but leverage existing strengths.",
   "Format your response as a list of suggestions, using markdown for clarity (e.g., headings for each role)."]

/-! ### AI routes (`server/routes/ai_routes.py`) -/

/-- Observable side steps of an AI route, recording whether text extraction
and the AI call were reached. -/
inductive RouteEvent where
  | extractionAttempt (filename : String)
  | aiCallAttempt (prompt_parts : List String)
  deriving DecidableEq, Repr

/-- App configuration read by the AI routes. -/
structure AiConfig where
  allowed_extensions : List String
  max_file_size_bytes : Nat
  max_file_size_mb : Nat
  gemini_model_instance : Option CallOutcome
  deriving Repr

/-- A request to `/api/analyze-resume`: the optional `resume_file` upload and
the `target_role` form field (`request.form.get('target_role', '')`). -/
structure ResumeRequest where
  resume_file : Option FileUpload
  target_role : String
  deriving Repr

/-- A request to `/api/suggest-roles`: the optional `resume_file` upload. -/
structure SuggestRequest where
  resume_file : Option FileUpload
  deriving Repr

/-- Mapping of a raised `AIServiceError` to a response
(`make_error_response(str(e), e.status_code)`). -/
def ai_failure_response (e : AIServiceErrorV) : ApiResponse :=
  make_error_response e.message e.status_code none

/-- Final stage of `/api/analyze-resume`: the AI call and the mapping of its
outcome to a response. -/
def analyze_resume_ai_stage (cfg : AiConfig) : ApiResponse :=
  match generate_ai_content cfg.gemini_model_instance with
  | .error e => ai_failure_response e
  | .ok t => ⟨200, .obj (.cons "analysis" (.str t) .nil)⟩

/-- Stages of `/api/analyze-resume` after the file-size check: target-role
validation, text extraction, prompt construction and the AI call. -/
def analyze_resume_after_size (cfg : AiConfig) (file : FileUpload) (target_role : String) :
    ApiResponse × List RouteEvent :=
  if target_role = "" then
    (make_error_response "Target role is required" 400 none, [])
  else if MAX_TARGET_ROLE_LENGTH < target_role.length then
    (make_error_response
      ("Target role exceeds maximum length of " ++ toString MAX_TARGET_ROLE_LENGTH ++
        " characters") 400 none, [])
  else
    match extract_text_from_file file with
    | none =>
      (make_error_response
        "Could not extract text from file. It might be corrupted or an unsupported format variant."
        400 none, [.extractionAttempt file.filename])
    | some resume_text =>
      let prompt_parts := get_resume_feedback_prompt target_role resume_text
      (analyze_resume_ai_stage cfg,
        [.extractionAttempt file.filename, .aiCallAttempt prompt_parts])

/-- Model of `analyze_resume_route`. -/
def analyze_resume_route (cfg : AiConfig) (req : ResumeRequest) :
    ApiResponse × List RouteEvent :=
  match req.resume_file with
  | none =>
    (make_error_response "No resume file provided ('resume_file' field missing)" 400 none, [])
  | some file =>
    if file.filename = "" then
      (make_error_response "No file selected for upload" 400 none, [])
    else if !allowed_file file.filename cfg.allowed_extensions then
      (make_error_response
        ("Invalid file type. Allowed types: " ++
          String.intercalate ", " cfg.allowed_extensions) 400 none, [])
    else if cfg.max_file_size_bytes < file.content.length then
      (make_error_response
        ("File exceeds maximum size of " ++ toString cfg.max_file_size_mb ++ "MB") 413 none, [])
    else analyze_resume_after_size cfg file req.target_role

/-- Final stage of `/api/suggest-roles`: the AI call and the mapping of its
outcome to a response. -/
def suggest_roles_ai_stage (cfg : AiConfig) : ApiResponse :=
  match generate_ai_content cfg.gemini_model_instance with
  | .error e => ai_failure_response e
  | .ok t => ⟨200, .obj (.cons "suggestions" (.str t) .nil)⟩

/-- Stages of `/api/suggest-roles` after the file-size check. -/
def suggest_roles_after_size (cfg : AiConfig) (file : FileUpload) :
    ApiResponse × List RouteEvent :=
  match extract_text_from_file file with
  | none =>
    (make_error_response
      "Could not extract text from file. It might be corrupted or an unsupported format variant."
      400 none, [.extractionAttempt file.filename])
  | some resume_text =>
    let prompt_parts := get_role_suggestion_prompt resume_text
    (suggest_roles_ai_stage cfg,
      [.extractionAttempt file.filename, .aiCallAttempt prompt_parts])

/-- Model of `suggest_roles_route`. -/
def suggest_roles_route (cfg : AiConfig) (req : SuggestRequest) :
    ApiResponse × List RouteEvent :=
  match req.resume_file with
  | none =>
    (make_error_response "No resume file provided ('resume_file' field missing)" 400 none, [])
  | some file =>
    if file.filename = "" then
      (make_error_response "No file selected for upload" 400 none, [])
    else if !allowed_file file.filename cfg.allowed_extensions then
      (make_error_response
        ("Invalid file type. Allowed types: " ++
          String.intercalate ", " cfg.allowed_extensions) 400 none, [])
    else if cfg.max_file_size_bytes < file.content.length then
      (make_error_response
        ("File exceeds maximum size of " ++ toString cfg.max_file_size_mb ++ "MB") 413 none, [])
    else suggest_roles_after_size cfg file

/-! ### Auth routes (`server/routes/auth_routes.py`) -/

/-- A parsed JSON body for register/login: the optional `email` and
`password` fields. -/
structure AuthRequest where
  email : Option String
  password : Option String
  deriving DecidableEq, Repr

/-- Model of `register_user`: validations, duplicate check against the user
store, then insertion with the next autoincrement id.  Returns the response
and the resulting user store. -/
def register_user (users : List UserRec) (next_id : Nat)
    (generate_password_hash : String → String) (req : AuthRequest) :
    ApiResponse × List UserRec :=
  if !truthyStr req.email || !truthyStr req.password then
    (make_error_response "Email and password are required" 400 none, users)
  else
    let email := req.email.getD ""
    let password := req.password.getD ""
    if !is_valid_email email then
      (make_error_response "Invalid email format" 400 none, users)
    else if MAX_INPUT_STRING_LENGTH < email.length then
      (make_error_response
        ("Email exceeds maximum length of " ++ toString MAX_INPUT_STRING_LENGTH ++
          " characters") 400 none, users)
    else if password.length < 6 then
      (make_error_response "Password must be at least 6 characters long" 400 none, users)
    else if MAX_INPUT_STRING_LENGTH < password.length then
      (make_error_response
        ("Password exceeds maximum length of " ++ toString MAX_INPUT_STRING_LENGTH ++
          " characters") 400 none, users)
    else
      match users.find? (fun u => u.email == email) with
      | some _ => (make_error_response "Email already registered" 409 none, users)
      | none =>
        let new_user : UserRec := ⟨next_id, email, generate_password_hash password⟩
        (⟨201, .obj (.cons "message" (.str "User registered successfully")
          (.cons "user_id" (.num next_id) .nil))⟩, users ++ [new_user])

/-- Model of `login_user`: validations, then lookup by email and bcrypt
verification; a token is issued for the stringified user id on success, and
the single `"Invalid email or password"` 401 response covers both unknown
email and wrong password. -/
def login_user (users : List UserRec) (check_password_hash : String → String → Bool)
    (create_access_token : String → String) (req : AuthRequest) : ApiResponse :=
  if !truthyStr req.email || !truthyStr req.password then
    make_error_response "Email and password are required" 400 none
  else
    let email := req.email.getD ""
    let password := req.password.getD ""
    if !is_valid_email email then
      make_error_response "Invalid email format provided for login" 400 none
    else if MAX_INPUT_STRING_LENGTH < email.length then
      make_error_response
        ("Email exceeds maximum length of " ++ toString MAX_INPUT_STRING_LENGTH ++
          " characters") 400 none
    else
      match users.find? (fun u => u.email == email) with
      | some user =>
        if check_password_hash user.password_hash password then
          ⟨200, .obj (.cons "message" (.str "Login successful")
            (.cons "user_id" (.num user.id)
              (.cons "access_token" (.str (create_access_token (toString user.id))) .nil)))⟩
        else make_error_response "Invalid email or password" 401 none
      | none => make_error_response "Invalid email or password" 401 none

/-! ### Path routes (`server/routes/path_routes.py`) -/

/-- A parsed JSON body for `/api/save-path`: the optional `path_name` and
`path_details_json` fields (the whole request wrapped in `Option` models
`request.get_json()` returning `None`). -/
structure SavePathRequest where
  path_name : Option String
  path_details_json : Option JVal
  deriving DecidableEq, Repr

/-- Model of `save_career_path_route`: body and name validation, lookup of
the authenticated user, then insertion of a new `SavedPath` (the
`path_details_json` property setter serializes the optional details).
Returns the response and the resulting path store. -/
def save_career_path_route (users : List UserRec) (paths : List SavedPathRec)
    (next_path_id : Nat) (current_user_id : Nat) (req : Option SavePathRequest) :
    ApiResponse × List SavedPathRec :=
  match req with
  | none => (make_error_response "Invalid or missing JSON request body." 400 none, paths)
  | some data =>
    if !truthyStr data.path_name then
      (make_error_response "path_name is required" 400 none, paths)
    else
      let path_name := data.path_name.getD ""
      if MAX_PATH_NAME_LENGTH < path_name.length then
        (make_error_response
          ("Path name exceeds maximum length of " ++ toString MAX_PATH_NAME_LENGTH ++
            " characters") 400 none, paths)
      else
        match users.find? (fun u => u.id == current_user_id) with
        | none => (make_error_response "Authenticated user not found in database" 404 none, paths)
        | some _ =>
          let new_path : SavedPathRec :=
            ⟨next_path_id, path_name, path_details_setter data.path_details_json,
              current_user_id⟩
          (⟨201, .obj (.cons "message" (.str "Career path saved successfully")
            (.cons "path_id" (.num next_path_id) .nil))⟩, paths ++ [new_path])

/-- Model of `get_user_paths_route`: lookup of the authenticated user, then
the user's paths rendered through `to_dict` as a JSON array. -/
def get_user_paths_route (users : List UserRec) (paths : List SavedPathRec)
    (current_user_id : Nat) : ApiResponse :=
  match users.find? (fun u => u.id == current_user_id) with
  | none => make_error_response "Authenticated user not found in database" 404 none
  | some _ =>
    let paths_data :=
      (paths.filter (fun p => p.user_id == current_user_id)).map
        (fun p => JVal.obj p.to_dict)
    ⟨200, .arr (jElemsOfList paths_data)⟩

/-- Model of `delete_career_path_route`: primary-key lookup of the path,
404 when absent, 403 when the requester (the integer value of the JWT
identity) is not the owner, and deletion of that row with 200 otherwise.
Returns the response and the resulting path store. -/
def delete_career_path_route (paths : List SavedPathRec) (current_user_id : Nat)
    (path_id : Nat) : ApiResponse × List SavedPathRec :=
  match paths.find? (fun p => p.id == path_id) with
  | none => (make_error_response "Path not found" 404 none, paths)
  | some path_to_delete =>
    if path_to_delete.user_id ≠ current_user_id then
      (make_error_response "Forbidden: You do not own this path" 403 none, paths)
    else
      (⟨200, .obj (.cons "message" (.str "Career path deleted successfully") .nil)⟩,
        paths.eraseP (fun p => p.id == path_id))

/-! ### Application state machine

States reachable through the store-mutating endpoints, for the uniqueness
invariant of user emails. -/

/-- Persistent state: the two tables plus autoincrement counters. -/
structure AppState where
  users : List UserRec
  next_user_id : Nat
  paths : List SavedPathRec
  next_path_id : Nat
  deriving Repr

/-- One API operation against the store. -/
inductive AppOp where
  | register (req : AuthRequest)
  | savePath (current_user_id : Nat) (req : Option SavePathRequest)
  | deletePath (current_user_id : Nat) (path_id : Nat)
  deriving Repr

/-- Effect of one operation on the persistent state (login and the read-only
routes do not modify it). -/
def appStep (generate_password_hash : String → String) (s : AppState) (op : AppOp) :
    AppState :=
  match op with
  | .register req =>
    let r := register_user s.users s.next_user_id generate_password_hash req
    { s with users := r.2,
             next_user_id := if r.1.status = 201 then s.next_user_id + 1 else s.next_user_id }
  | .savePath uid req =>
    let r := save_career_path_route s.users s.paths s.next_path_id uid req
    { s with paths := r.2,
             next_path_id := if r.1.status = 201 then s.next_path_id + 1 else s.next_path_id }
  | .deletePath uid pid =>
    let r := delete_career_path_route s.paths uid pid
    { s with paths := r.2 }

/-- The empty store. -/
def initState : AppState := ⟨[], 1, [], 1⟩

/-- States reachable from the empty store by API operations. -/
inductive Reachable (generate_password_hash : String → String) : AppState → Prop where
  | init : Reachable generate_password_hash initState
  | step (s : AppState) (op : AppOp) (h : Reachable generate_password_hash s) :
      Reachable generate_password_hash (appStep generate_password_hash s op)

/-- Whether a character list does not start with a decimal digit (the
boundary condition after a serialized number). -/
def noDigitHead : List Char → Bool
  | [] => true
  | c :: _ => !c.isDigit

/-- Whether the second character list occurs contiguously inside the
first. -/
def containsSeq : List Char → List Char → Bool
  | [], needle => needle.isEmpty
  | c :: t, needle => List.isPrefixOf needle (c :: t) || containsSeq t needle

/-! ## Theorems -/

/-! ### Round trip of the JSON serializer and parser -/

theorem digitChar_isDigit {d : Nat} (h : d < 10) : (Nat.digitChar d).isDigit = true := by
  revert h; revert d; decide

theorem digitChar_toNat {d : Nat} (h : d < 10) : (Nat.digitChar d).toNat = 48 + d := by
  revert h; revert d; decide

theorem hexVal_digitChar {h : Nat} (hh : h < 16) : hexVal (Nat.digitChar h) = some h := by
  revert hh; revert h; decide

theorem natDigits_shape (n : Nat) :
    ∃ c cs, natDigits n = c :: cs ∧ c.isDigit = true := by
  induction n using Nat.strong_induction_on with
  | _ n ih =>
    by_cases h : n < 10
    all_goals rw [natDigits]
    · exact ⟨Nat.digitChar n, [], by simp [h], digitChar_isDigit h⟩
    · have hlt : n / 10 < n := Nat.div_lt_self (by omega) (by omega)
      obtain ⟨c, cs, hc, hd⟩ := ih (n / 10) hlt
      exact ⟨c, cs ++ [Nat.digitChar (n % 10)], by simp [h, hc], hd⟩

theorem parseDigits_noDigit {rest : List Char} (h : noDigitHead rest = true) (acc : Nat) :
    parseDigits acc rest = (acc, rest) := by
  cases rest with
  | nil => simp [parseDigits]
  | cons c cs =>
    simp only [noDigitHead, Bool.not_eq_true'] at h
    simp [parseDigits, h]

theorem parseDigits_natDigits (n : Nat) :
    ∀ acc rest, parseDigits acc (natDigits n ++ rest) =
      parseDigits (acc * 10 ^ (natDigits n).length + n) rest := by
  induction n using Nat.strong_induction_on with
  | _ n ih =>
    intro acc rest
    by_cases h : n < 10
    · rw [natDigits]
      simp only [h, if_true, List.singleton_append, List.length_singleton]
      have e1 : parseDigits acc (Nat.digitChar n :: rest) =
          parseDigits (acc * 10 + ((Nat.digitChar n).toNat - 48)) rest := by
        simp [parseDigits, digitChar_isDigit h]
      rw [e1, digitChar_toNat h]
      have e2 : acc * 10 + (48 + n - 48) = acc * 10 ^ 1 + n := by omega
      rw [e2]
    · rw [natDigits]
      simp only [h, if_false, List.append_assoc, List.singleton_append, List.length_append,
        List.length_singleton]
      have hlt : n / 10 < n := Nat.div_lt_self (by omega) (by omega)
      rw [ih (n / 10) hlt]
      have h10 : (n % 10) < 10 := Nat.mod_lt _ (by omega)
      have e1 : ∀ a, parseDigits a (Nat.digitChar (n % 10) :: rest) =
          parseDigits (a * 10 + ((Nat.digitChar (n % 10)).toNat - 48)) rest := by
        intro a; simp [parseDigits, digitChar_isDigit h10]
      rw [e1, digitChar_toNat h10]
      have e2 : (acc * 10 ^ (natDigits (n / 10)).length + n / 10) * 10 + (48 + n % 10 - 48) =
          acc * 10 ^ ((natDigits (n / 10)).length + 1) + n := by
        rw [Nat.pow_succ]
        have := Nat.div_add_mod n 10
        ring_nf
        omega
      rw [e2]

theorem parsePosInt_natDigits {rest : List Char} (n : Nat) (h : noDigitHead rest = true) :
    parsePosInt (natDigits n ++ rest) = some (n, rest) := by
  obtain ⟨c, cs, hc, hd⟩ := natDigits_shape n
  have h0 : parseDigits 0 (natDigits n ++ rest) = (n, rest) := by
    rw [parseDigits_natDigits, parseDigits_noDigit h]
    simp
  rw [hc] at h0 ⊢
  simp only [List.cons_append, parseDigits, hd, if_true] at h0
  simp only [List.append_eq, Nat.zero_mul, Nat.zero_add] at h0
  simp [parsePosInt, hd, h0]

theorem parseStrBody_escList (cs : List Char) :
    ∀ rest, parseStrBody (escList cs ++ '"' :: rest) = some (cs, rest) := by
  induction cs with
  | nil => intro rest; simp [escList, parseStrBody]
  | cons c cs ih =>
    intro rest
    simp only [escList, List.append_assoc]
    by_cases hc1 : c = '\\'
    · subst hc1; simp [escChar, parseStrBody, parseEsc, unescChar, ih]
    by_cases hc2 : c = '"'
    · subst hc2; simp [escChar, parseStrBody, parseEsc, unescChar, ih]
    by_cases hc3 : c = '\n'
    · subst hc3; simp [escChar, parseStrBody, parseEsc, unescChar, ih]
    by_cases hc4 : c = '\t'
    · subst hc4; simp [escChar, parseStrBody, parseEsc, unescChar, ih]
    by_cases hc5 : c = '\r'
    · subst hc5; simp [escChar, parseStrBody, parseEsc, unescChar, ih]
    by_cases hc6 : c.toNat = 8
    · have hc : Char.ofNat 8 = c := by rw [← hc6, Char.ofNat_toNat]
      simp only [List.append_assoc] at ih ⊢
      have hesc : escChar c = ['\\', 'b'] := by simp [escChar, hc1, hc2, hc3, hc4, hc5, hc6]
      rw [hesc]
      simp only [List.cons_append, List.nil_append]
      have e0 : parseStrBody ('\\' :: 'b' :: (escList cs ++ '"' :: rest)) =
          parseEsc ('b' :: (escList cs ++ '"' :: rest)) := by simp [parseStrBody]
      have e1 : parseEsc ('b' :: (escList cs ++ '"' :: rest)) =
          (parseStrBody (escList cs ++ '"' :: rest)).map fun p =>
            (Char.ofNat 8 :: p.1, p.2) := by simp [parseEsc, unescChar]
      rw [e0, e1, ih, hc]
      rfl
    by_cases hc7 : c.toNat = 12
    · have hc : Char.ofNat 12 = c := by rw [← hc7, Char.ofNat_toNat]
      have hesc : escChar c = ['\\', 'f'] := by simp [escChar, hc1, hc2, hc3, hc4, hc5, hc7]
      rw [hesc]
      simp only [List.cons_append, List.nil_append]
      have e0 : parseStrBody ('\\' :: 'f' :: (escList cs ++ '"' :: rest)) =
          parseEsc ('f' :: (escList cs ++ '"' :: rest)) := by simp [parseStrBody]
      have e1 : parseEsc ('f' :: (escList cs ++ '"' :: rest)) =
          (parseStrBody (escList cs ++ '"' :: rest)).map fun p =>
            (Char.ofNat 12 :: p.1, p.2) := by simp [parseEsc, unescChar]
      rw [e0, e1, ih, hc]
      rfl
    by_cases hc8 : c.toNat < 32
    · have hd1 : c.toNat / 16 < 16 := by omega
      have hd2 : c.toNat % 16 < 16 := by omega
      have hesc : escChar c = ['\\', 'u', '0', '0', Nat.digitChar (c.toNat / 16),
          Nat.digitChar (c.toNat % 16)] := by
        simp [escChar, hc1, hc2, hc3, hc4, hc5, hc6, hc7, hc8]
      rw [hesc]
      simp only [List.cons_append, List.nil_append]
      have e0 : parseStrBody ('\\' :: 'u' :: '0' :: '0' :: Nat.digitChar (c.toNat / 16) ::
          Nat.digitChar (c.toNat % 16) :: (escList cs ++ '"' :: rest)) =
          parseEsc ('u' :: '0' :: '0' :: Nat.digitChar (c.toNat / 16) ::
            Nat.digitChar (c.toNat % 16) :: (escList cs ++ '"' :: rest)) := by
        simp [parseStrBody]
      have hz : hexVal '0' = some 0 := by decide
      have e1 : parseEsc ('u' :: '0' :: '0' :: Nat.digitChar (c.toNat / 16) ::
          Nat.digitChar (c.toNat % 16) :: (escList cs ++ '"' :: rest)) =
          (parseStrBody (escList cs ++ '"' :: rest)).map fun p =>
            (Char.ofNat (((0 * 16 + 0) * 16 + (c.toNat / 16)) * 16 + (c.toNat % 16)) :: p.1,
              p.2) := by
        simp [parseEsc, hz, hexVal_digitChar hd1, hexVal_digitChar hd2]
      rw [e0, e1, ih]
      have hval2 : ((0 * 16 + 0) * 16 + (c.toNat / 16)) * 16 + c.toNat % 16 = c.toNat := by
        omega
      rw [hval2, Char.ofNat_toNat]
      rfl
    · have hesc : escChar c = [c] := by simp [escChar, hc1, hc2, hc3, hc4, hc5, hc6, hc7, hc8]
      rw [hesc]
      simp only [List.cons_append, List.nil_append]
      simp [parseStrBody, hc1, hc2, ih]

theorem stringMk_data (s : String) : String.mk s.data = s := rfl

theorem sizeV_pos (v : JVal) : 1 ≤ sizeV v := by
  cases v <;> simp [sizeV]

theorem sizeE_pos (es : JElems) : 1 ≤ sizeE es := by
  cases es with
  | nil => simp [sizeE]
  | cons v es => simp [sizeE]; have := sizeV_pos v; omega

theorem sizeM_pos (ms : JMembs) : 1 ≤ sizeM ms := by
  cases ms with
  | nil => simp [sizeM]
  | cons k v ms => simp [sizeM]; have := sizeV_pos v; omega

theorem isDigit_notBrack {c : Char} (h : c.isDigit = true) : c ≠ ']' ∧ c ≠ '}' := by
  constructor <;> (intro he; subst he; simp [Char.isDigit] at h)

theorem printV_shape (v : JVal) :
    ∃ c cs, printV v = c :: cs ∧ c ≠ ']' ∧ c ≠ '}' := by
  cases v with
  | null => refine ⟨'n', _, rfl, ?_, ?_⟩ <;> decide
  | bool b =>
    cases b
    · refine ⟨'f', _, rfl, ?_, ?_⟩ <;> decide
    · refine ⟨'t', _, rfl, ?_, ?_⟩ <;> decide
  | num n =>
    by_cases hn : n < 0
    · refine ⟨'-', natDigits n.natAbs, by simp [printV, intChars, hn], ?_, ?_⟩ <;> decide
    · obtain ⟨c, cs, hc, hd⟩ := natDigits_shape n.toNat
      obtain ⟨hbr1, hbr2⟩ := isDigit_notBrack hd
      exact ⟨c, cs, by simp [printV, intChars, hn, hc], hbr1, hbr2⟩
  | str s => refine ⟨'"', _, rfl, ?_, ?_⟩ <;> decide
  | arr es => refine ⟨'[', _, rfl, ?_, ?_⟩ <;> decide
  | obj ms => refine ⟨'{', _, rfl, ?_, ?_⟩ <;> decide

theorem parse_print (fuel : Nat) :
    (∀ v rest, sizeV v ≤ fuel → noDigitHead rest = true →
      parseV fuel (printV v ++ rest) = some (v, rest)) ∧
    (∀ v es rest, sizeE (.cons v es) ≤ fuel →
      parseElems fuel (printElems (.cons v es) ++ ']' :: rest) = some (.cons v es, rest)) ∧
    (∀ k v ms rest, sizeM (.cons k v ms) ≤ fuel →
      parseMembs fuel (printMembs (.cons k v ms) ++ '}' :: rest) = some (.cons k v ms, rest)) := by
  induction fuel with
  | zero =>
    refine ⟨fun v rest hs _ => ?_, fun v es rest hs => ?_, fun k v ms rest hs => ?_⟩
    · exact absurd hs (by have := sizeV_pos v; omega)
    · exact absurd hs (by have := sizeV_pos v; have := sizeE_pos es; simp [sizeE]; omega)
    · exact absurd hs (by have := sizeV_pos v; have := sizeM_pos ms; simp [sizeM]; omega)
  | succ fuel ih =>
    obtain ⟨ih1, ih2, ih3⟩ := ih
    refine ⟨fun v rest hs hb => ?_, fun v es rest hs => ?_, fun k v ms rest hs => ?_⟩
    · -- one value
      cases v with
      | null => simp [printV, parseV]
      | bool b => cases b <;> simp [printV, parseV]
      | num n =>
        by_cases hn : n < 0
        · have hpp := parsePosInt_natDigits n.natAbs hb
          have hneg : -((n.natAbs : Nat) : Int) = n := by omega
          have hneg2 : -|n| = n := by rw [abs_of_nonpos (le_of_lt hn), neg_neg]
          simp only [printV, intChars, hn, if_true, List.cons_append, List.append_assoc]
          simp [parseV, hpp, hneg, hneg2]
        · obtain ⟨c, cs, hc, hd⟩ := natDigits_shape n.toNat
          have hpp := parsePosInt_natDigits n.toNat hb
          have hpos : ((n.toNat : Nat) : Int) = n := by omega
          simp only [printV, intChars, hn, if_false, hc, List.cons_append]
          rw [hc] at hpp
          simp only [List.cons_append] at hpp
          simp [parseV, hd, hpp, hpos]
      | str s =>
        simp only [printV, List.cons_append, List.append_assoc, List.singleton_append]
        simp [parseV, parseStrBody_escList, stringMk_data]
      | arr es =>
        cases es with
        | nil => simp [printV, printElems, parseV]
        | cons v es =>
          obtain ⟨c, cs, hc, hbr1, hbr2⟩ := printV_shape v
          have hsz : sizeE (JElems.cons v es) ≤ fuel := by
            simp only [sizeV] at hs; omega
          have hpe := ih2 v es rest hsz
          simp only [printV, List.cons_append, List.append_assoc, List.singleton_append]
          have hpes : ∃ cs2, printElems (JElems.cons v es) = c :: cs2 := by
            cases es with
            | nil => exact ⟨cs, by simp [printElems, hc]⟩
            | cons w es2 =>
              exact ⟨cs ++ ',' :: ' ' :: printElems (JElems.cons w es2),
                by simp [printElems, hc]⟩
          obtain ⟨cs2, hpes⟩ := hpes
          rw [hpes] at hpe
          simp only [List.cons_append] at hpe
          simp [parseV, hpes, hbr1, hpe]
      | obj ms =>
        cases ms with
        | nil => simp [printV, printMembs, parseV]
        | cons k v ms =>
          have hsz : sizeM (JMembs.cons k v ms) ≤ fuel := by
            simp only [sizeV] at hs; omega
          have hpm := ih3 k v ms rest hsz
          simp only [printV, List.cons_append, List.append_assoc, List.singleton_append]
          have hpms : ∃ cs2, printMembs (JMembs.cons k v ms) = '"' :: cs2 := by
            cases ms with
            | nil =>
              exact ⟨escList k.data ++ '"' :: ':' :: ' ' :: printV v, by simp [printMembs]⟩
            | cons k2 v2 ms2 =>
              exact ⟨(escList k.data ++ '"' :: ':' :: ' ' :: printV v) ++
                ',' :: ' ' :: printMembs (JMembs.cons k2 v2 ms2), by simp [printMembs]⟩
          obtain ⟨cs2, hpms⟩ := hpms
          rw [hpms] at hpm
          simp only [List.cons_append] at hpm
          simp [parseV, hpms, hpm]
    · -- elements of a non-empty array
      cases es with
      | nil =>
        have hsz : sizeV v ≤ fuel := by simp only [sizeE] at hs; omega
        have hpv := ih1 v (']' :: rest) hsz (by simp [noDigitHead])
        simp only [printElems]
        simp [parseElems, hpv]
      | cons w es =>
        have hszv : sizeV v ≤ fuel := by
          simp only [sizeE] at hs
          have := sizeV_pos w; have := sizeE_pos es; omega
        have hsze : sizeE (JElems.cons w es) ≤ fuel := by
          simp only [sizeE] at hs ⊢
          have := sizeV_pos v; omega
        have hpv := ih1 v (',' :: ' ' :: (printElems (JElems.cons w es) ++ ']' :: rest))
          hszv (by simp [noDigitHead])
        have hpe := ih2 w es rest hsze
        simp only [printElems, List.append_assoc, List.cons_append]
        simp [parseElems, hpv, hpe]
    · -- members of a non-empty object
      cases ms with
      | nil =>
        have hsz : sizeV v ≤ fuel := by simp only [sizeM] at hs; omega
        have hpv := ih1 v ('}' :: rest) hsz (by simp [noDigitHead])
        simp only [printMembs, List.cons_append, List.append_assoc]
        simp [parseMembs, parseStrBody_escList, hpv, stringMk_data]
      | cons k2 v2 ms =>
        have hszv : sizeV v ≤ fuel := by
          simp only [sizeM] at hs
          have := sizeV_pos v2; have := sizeM_pos ms; omega
        have hszm : sizeM (JMembs.cons k2 v2 ms) ≤ fuel := by
          simp only [sizeM] at hs ⊢
          have := sizeV_pos v; omega
        have hpv := ih1 v (',' :: ' ' :: (printMembs (JMembs.cons k2 v2 ms) ++ '}' :: rest))
          hszv (by simp [noDigitHead])
        have hpm := ih3 k2 v2 ms rest hszm
        simp only [printMembs, List.append_assoc, List.cons_append]
        simp [parseMembs, parseStrBody_escList, hpv, hpm, stringMk_data]

theorem size_bound (n : Nat) :
    (∀ v, sizeV v ≤ n → sizeV v ≤ (printV v).length) ∧
    (∀ es, sizeE es ≤ n → sizeE es ≤ (printElems es).length + 1) ∧
    (∀ ms, sizeM ms ≤ n → sizeM ms ≤ (printMembs ms).length + 1) := by
  induction n with
  | zero =>
    refine ⟨fun v hv => absurd hv (by have := sizeV_pos v; omega),
      fun es he => absurd he (by have := sizeE_pos es; omega),
      fun ms hm => absurd hm (by have := sizeM_pos ms; omega)⟩
  | succ n ih =>
    obtain ⟨ih1, ih2, ih3⟩ := ih
    refine ⟨fun v hv => ?_, fun es he => ?_, fun ms hm => ?_⟩
    · cases v with
      | null => simp [sizeV, printV]
      | bool b => cases b <;> simp [sizeV, printV]
      | num m =>
        by_cases hm : m < 0
        · simp [sizeV, printV, intChars, hm]
        · obtain ⟨c, cs, hc, _⟩ := natDigits_shape m.toNat
          simp [sizeV, printV, intChars, hm, hc]
      | str s => simp [sizeV, printV]
      | arr es =>
        cases es with
        | nil => simp [sizeV, sizeE, printV, printElems]
        | cons w es2 =>
          have hse : sizeE (JElems.cons w es2) ≤ n := by
            simp only [sizeV] at hv; omega
          have := ih2 (JElems.cons w es2) hse
          simp only [sizeV, printV, List.length_cons, List.length_append,
            List.length_singleton]
          omega
      | obj ms =>
        cases ms with
        | nil => simp [sizeV, sizeM, printV, printMembs]
        | cons k w ms2 =>
          have hsm : sizeM (JMembs.cons k w ms2) ≤ n := by
            simp only [sizeV] at hv; omega
          have := ih3 (JMembs.cons k w ms2) hsm
          simp only [sizeV, printV, List.length_cons, List.length_append,
            List.length_singleton]
          omega
    · cases es with
      | nil => simp [sizeE, printElems]
      | cons v es2 =>
        have hv1 : sizeV v ≤ n := by
          simp only [sizeE] at he
          have := sizeE_pos es2; omega
        have hb1 := ih1 v hv1
        cases es2 with
        | nil =>
          simp only [sizeE, printElems] at he ⊢
          omega
        | cons w es3 =>
          have he2 : sizeE (JElems.cons w es3) ≤ n := by
            simp only [sizeE] at he ⊢
            have := sizeV_pos v; omega
          have hb2 := ih2 (JElems.cons w es3) he2
          simp only [sizeE, printElems, List.length_append, List.length_cons] at he hb2 ⊢
          omega
    · cases ms with
      | nil => simp [sizeM, printMembs]
      | cons k v ms2 =>
        have hv1 : sizeV v ≤ n := by
          simp only [sizeM] at hm
          have := sizeM_pos ms2; omega
        have hb1 := ih1 v hv1
        cases ms2 with
        | nil =>
          simp only [sizeM, printMembs, List.length_cons, List.length_append] at hm ⊢
          omega
        | cons k2 w ms3 =>
          have hm2 : sizeM (JMembs.cons k2 w ms3) ≤ n := by
            simp only [sizeM] at hm ⊢
            have := sizeV_pos v; omega
          have hb2 := ih3 (JMembs.cons k2 w ms3) hm2
          simp only [sizeM, printMembs, List.length_append, List.length_cons] at hm hb2 ⊢
          omega

theorem sizeV_le_len (v : JVal) : sizeV v ≤ (printV v).length :=
  (size_bound (sizeV v)).1 v le_rfl

/-- Round trip of the `path_details_json` serialize/deserialize pair:
`json.loads` recovers exactly the value `json.dumps` stored. -/
theorem loads_dumps (v : JVal) : loads (dumps v) = some v := by
  have h1 := (parse_print ((printV v).length + 1)).1 v []
    (by have := sizeV_le_len v; omega) (by simp [noDigitHead])
  simp only [List.append_nil] at h1
  simp [loads, dumps, h1]

/-! ### Generic list helpers -/

theorem find?_first {α : Type} {pred : α → Bool} :
    ∀ (l₁ : List α) (a : α) (l₂ : List α), (∀ b ∈ l₁, pred b = false) → pred a = true →
      List.find? pred (l₁ ++ a :: l₂) = some a := by
  intro l₁
  induction l₁ with
  | nil => intro a l₂ _ ha; simp [List.find?, ha]
  | cons c t ih =>
    intro a l₂ hfree ha
    have hc : pred c = false := hfree c (by simp)
    simp only [List.cons_append, List.find?, hc]
    exact ih a l₂ (fun b hb => hfree b (by simp [hb])) ha

theorem mem_eraseP_of_find? {α : Type} {pred : α → Bool} {l : List α} {p q : α}
    (hfind : List.find? pred l = some p) (hq : q ∈ l) (hne : q ≠ p) :
    q ∈ List.eraseP pred l := by
  have hp_mem : p ∈ l := List.mem_of_find?_eq_some hfind
  have hp_pred : pred p = true := List.find?_some hfind
  obtain ⟨a, l₁, l₂, hfree, hpa, hl, herase⟩ := List.exists_of_eraseP hp_mem hp_pred
  have : List.find? pred l = some a := by
    rw [hl]; exact find?_first l₁ a l₂ (fun b hb => by
      have := hfree b hb; simpa using this) hpa
  have hap : a = p := by rw [hfind] at this; exact (Option.some_inj.mp this).symm
  subst hap
  rw [herase]
  rw [hl] at hq
  rcases List.mem_append.mp hq with h1 | h2
  · exact List.mem_append.mpr (Or.inl h1)
  · rcases List.mem_cons.mp h2 with h3 | h4
    · exact absurd h3 hne
    · exact List.mem_append.mpr (Or.inr h4)

/-! ### Claim theorems -/

/-- Claim C1: for every authenticated DELETE /api/delete-path/{id} request,
a missing path id gives 404 with no deletion, a path owned by another user
gives 403 with no deletion, and only an owned path is deleted with 200;
moreover no path owned by a different user is ever removed by the request. -/
theorem claim_C1_delete_path_authorization (paths : List SavedPathRec)
    (current_user_id path_id : Nat) :
    ((∀ p ∈ paths, p.id ≠ path_id) →
      delete_career_path_route paths current_user_id path_id =
        (make_error_response "Path not found" 404 none, paths)) ∧
    (∀ p, paths.find? (fun q => q.id == path_id) = some p →
      p.user_id ≠ current_user_id →
      delete_career_path_route paths current_user_id path_id =
        (make_error_response "Forbidden: You do not own this path" 403 none, paths)) ∧
    (∀ p, paths.find? (fun q => q.id == path_id) = some p →
      p.user_id = current_user_id →
      delete_career_path_route paths current_user_id path_id =
        (⟨200, .obj (.cons "message" (.str "Career path deleted successfully") .nil)⟩,
          paths.eraseP (fun q => q.id == path_id))) ∧
    (∀ q ∈ paths, q.user_id ≠ current_user_id →
      q ∈ (delete_career_path_route paths current_user_id path_id).2) := by
  refine ⟨fun hnone => ?_, ?_, ?_, ?_⟩
  ·
    have hfind : paths.find? (fun q => q.id == path_id) = none := by
      rw [List.find?_eq_none]
      intro x hx
      simpa using hnone x hx
    simp [delete_career_path_route, hfind]
  · intro p hfind hne
    simp [delete_career_path_route, hfind, hne]
  · intro p hfind howner
    simp [delete_career_path_route, hfind, howner]
  · intro q hq hne
    rcases hfind : paths.find? (fun r => r.id == path_id) with _ | p
    · simp [delete_career_path_route, hfind]; exact hq
    · by_cases howner : p.user_id = current_user_id
      · have hqp : q ≠ p := by
          intro he; subst he; exact hne howner
        simp [delete_career_path_route, hfind, howner]
        exact mem_eraseP_of_find? hfind hq hqp
      · simp [delete_career_path_route, hfind, howner]
        exact hq

/-- Witness for C1 on a concrete store: user 1 deleting a missing id gets
404, deleting user 2's path gets 403 leaving the store unchanged, deleting
the own path succeeds, and user 2's path survives user 1's requests. -/
theorem claim_C1_witness :
    delete_career_path_route [⟨1, "X", none, 1⟩, ⟨2, "Y", none, 2⟩] 1 99 =
      (make_error_response "Path not found" 404 none,
        [⟨1, "X", none, 1⟩, ⟨2, "Y", none, 2⟩]) ∧
    delete_career_path_route [⟨1, "X", none, 1⟩, ⟨2, "Y", none, 2⟩] 1 2 =
      (make_error_response "Forbidden: You do not own this path" 403 none,
        [⟨1, "X", none, 1⟩, ⟨2, "Y", none, 2⟩]) ∧
    delete_career_path_route [⟨1, "X", none, 1⟩, ⟨2, "Y", none, 2⟩] 1 1 =
      (⟨200, .obj (.cons "message" (.str "Career path deleted successfully") .nil)⟩,
        [⟨2, "Y", none, 2⟩]) ∧
    (⟨2, "Y", none, 2⟩ : SavedPathRec) ∈
      (delete_career_path_route [⟨1, "X", none, 1⟩, ⟨2, "Y", none, 2⟩] 1 1).2 :=
  ⟨(claim_C1_delete_path_authorization
      [⟨1, "X", none, 1⟩, ⟨2, "Y", none, 2⟩] 1 99).1 (by decide),
    (claim_C1_delete_path_authorization
      [⟨1, "X", none, 1⟩, ⟨2, "Y", none, 2⟩] 1 2).2.1 ⟨2, "Y", none, 2⟩ (by decide) (by decide),
    (claim_C1_delete_path_authorization
      [⟨1, "X", none, 1⟩, ⟨2, "Y", none, 2⟩] 1 1).2.2.1 ⟨1, "X", none, 1⟩ (by decide) rfl,
    (claim_C1_delete_path_authorization
      [⟨1, "X", none, 1⟩, ⟨2, "Y", none, 2⟩] 1 1).2.2.2 ⟨2, "Y", none, 2⟩ (by decide) (by decide)⟩

theorem valid_email_ne_empty {e : String} (h : is_valid_email e = true) : e ≠ "" := by
  simp only [is_valid_email, Bool.and_eq_true, decide_eq_true_eq] at h
  exact h.1

/-- Claim C3: a login with a registered email but wrong password and a login
with an unknown email (both passing format and length validation) produce
identical responses: the same 401 status and the same JSON error body. -/
theorem claim_C3_login_enumeration_resistance (users : List UserRec)
    (check_password_hash : String → String → Bool) (create_access_token : String → String)
    (email1 password1 email2 password2 : String) (u : UserRec)
    (hv1 : is_valid_email email1 = true) (hl1 : email1.length ≤ MAX_INPUT_STRING_LENGTH)
    (hp1 : password1 ≠ "")
    (hv2 : is_valid_email email2 = true) (hl2 : email2.length ≤ MAX_INPUT_STRING_LENGTH)
    (hp2 : password2 ≠ "")
    (hfound : users.find? (fun x => x.email == email1) = some u)
    (hwrong : check_password_hash u.password_hash password1 = false)
    (hunknown : users.find? (fun x => x.email == email2) = none) :
    login_user users check_password_hash create_access_token ⟨some email1, some password1⟩ =
      login_user users check_password_hash create_access_token ⟨some email2, some password2⟩ ∧
    login_user users check_password_hash create_access_token ⟨some email1, some password1⟩ =
      make_error_response "Invalid email or password" 401 none := by
  have he1 := valid_email_ne_empty hv1
  have he2 := valid_email_ne_empty hv2
  have hnl1 : ¬ (MAX_INPUT_STRING_LENGTH < email1.length) := by omega
  have hnl2 : ¬ (MAX_INPUT_STRING_LENGTH < email2.length) := by omega
  have h1 : login_user users check_password_hash create_access_token
      ⟨some email1, some password1⟩ = make_error_response "Invalid email or password" 401 none := by
    simp [login_user, truthyStr, he1, hp1, hv1, hnl1, hfound, hwrong]
  have h2 : login_user users check_password_hash create_access_token
      ⟨some email2, some password2⟩ = make_error_response "Invalid email or password" 401 none := by
    simp [login_user, truthyStr, he2, hp2, hv2, hnl2, hunknown]
  exact ⟨h1.trans h2.symm, h1⟩

/-- Witness for C3: in a store holding `a@b.com`, a wrong-password login for
`a@b.com` and a login for the unknown `c@d.com` both yield the identical
401 body. -/
theorem claim_C3_witness :
    login_user [⟨1, "a@b.com", "hash"⟩] (fun _ _ => false) (fun s => s)
      ⟨some "a@b.com", some "wrongpw"⟩ =
      login_user [⟨1, "a@b.com", "hash"⟩] (fun _ _ => false) (fun s => s)
        ⟨some "c@d.com", some "whatever"⟩ ∧
    login_user [⟨1, "a@b.com", "hash"⟩] (fun _ _ => false) (fun s => s)
      ⟨some "a@b.com", some "wrongpw"⟩ =
      make_error_response "Invalid email or password" 401 none := by
  have hv1 : is_valid_email "a@b.com" = true := by decide
  have hl1 : ("a@b.com" : String).length ≤ MAX_INPUT_STRING_LENGTH := by decide
  have hp1 : ("wrongpw" : String) ≠ "" := by decide
  have hv2 : is_valid_email "c@d.com" = true := by decide
  have hl2 : ("c@d.com" : String).length ≤ MAX_INPUT_STRING_LENGTH := by decide
  have hp2 : ("whatever" : String) ≠ "" := by decide
  have hun : ([⟨1, "a@b.com", "hash"⟩] : List UserRec).find?
      (fun x => x.email == "c@d.com") = none := by decide
  exact claim_C3_login_enumeration_resistance [⟨1, "a@b.com", "hash"⟩] (fun _ _ => false)
    (fun s => s) "a@b.com" "wrongpw" "c@d.com" "whatever" ⟨1, "a@b.com", "hash"⟩
    hv1 hl1 hp1 hv2 hl2 hp2 rfl rfl hun

theorem password_ne_empty {p : String} (h : 6 ≤ p.length) : p ≠ "" := by
  intro he; subst he; simp at h

theorem register_user_dup (users : List UserRec) (next_id : Nat)
    (hash : String → String) (email password : String) (u : UserRec)
    (hv : is_valid_email email = true) (hle : email.length ≤ MAX_INPUT_STRING_LENGTH)
    (hp6 : 6 ≤ password.length) (hpl : password.length ≤ MAX_INPUT_STRING_LENGTH)
    (hfind : users.find? (fun x => x.email == email) = some u) :
    register_user users next_id hash ⟨some email, some password⟩ =
      (make_error_response "Email already registered" 409 none, users) := by
  have he := valid_email_ne_empty hv
  have hp := password_ne_empty hp6
  have h1 : ¬ (MAX_INPUT_STRING_LENGTH < email.length) := by omega
  have h2 : ¬ (password.length < 6) := by omega
  have h3 : ¬ (MAX_INPUT_STRING_LENGTH < password.length) := by omega
  simp [register_user, truthyStr, he, hp, hv, h1, h2, h3, hfind]

theorem register_user_fresh (users : List UserRec) (next_id : Nat)
    (hash : String → String) (email password : String)
    (hv : is_valid_email email = true) (hle : email.length ≤ MAX_INPUT_STRING_LENGTH)
    (hp6 : 6 ≤ password.length) (hpl : password.length ≤ MAX_INPUT_STRING_LENGTH)
    (hfind : users.find? (fun x => x.email == email) = none) :
    register_user users next_id hash ⟨some email, some password⟩ =
      (⟨201, .obj (.cons "message" (.str "User registered successfully")
        (.cons "user_id" (.num next_id) .nil))⟩,
        users ++ [⟨next_id, email, hash password⟩]) := by
  have he := valid_email_ne_empty hv
  have hp := password_ne_empty hp6
  have h1 : ¬ (MAX_INPUT_STRING_LENGTH < email.length) := by omega
  have h2 : ¬ (password.length < 6) := by omega
  have h3 : ¬ (MAX_INPUT_STRING_LENGTH < password.length) := by omega
  simp [register_user, truthyStr, he, hp, hv, h1, h2, h3, hfind]

theorem register_user_preserves_unique (users : List UserRec) (next_id : Nat)
    (hash : String → String) (req : AuthRequest)
    (h : users.Pairwise (fun a b => a.email ≠ b.email)) :
    (register_user users next_id hash req).2.Pairwise (fun a b => a.email ≠ b.email) := by
  unfold register_user
  dsimp only
  repeat' split
  all_goals try exact h
  rename_i heq
  rw [List.pairwise_append]
  refine ⟨h, List.pairwise_singleton _ _, fun a ha b hb => ?_⟩
  simp only [List.mem_singleton] at hb
  subst hb
  have hne := List.find?_eq_none.mp heq a ha
  simpa using hne

theorem reachable_emails_unique (hash : String → String) (s : AppState)
    (h : Reachable hash s) : s.users.Pairwise (fun a b => a.email ≠ b.email) := by
  induction h with
  | init => simp [initState]
  | step s op hs ih =>
    cases op with
    | register req =>
      simpa [appStep] using
        register_user_preserves_unique s.users s.next_user_id hash req ih
    | savePath uid req => simpa [appStep] using ih
    | deletePath uid pid => simpa [appStep] using ih

/-- Claim C8: email uniqueness — registering an existing email returns 409
without inserting, registering the same email twice yields 201 then 409, and
every reachable state has pairwise-distinct user emails. -/
theorem claim_C8_email_uniqueness :
    (∀ (users : List UserRec) (next_id : Nat) (hash : String → String)
        (email password : String) (u : UserRec),
      is_valid_email email = true → email.length ≤ MAX_INPUT_STRING_LENGTH →
      6 ≤ password.length → password.length ≤ MAX_INPUT_STRING_LENGTH →
      u ∈ users → u.email = email →
      register_user users next_id hash ⟨some email, some password⟩ =
        (make_error_response "Email already registered" 409 none, users)) ∧
    (∀ (users : List UserRec) (next_id next_id2 : Nat) (hash : String → String)
        (email password : String),
      is_valid_email email = true → email.length ≤ MAX_INPUT_STRING_LENGTH →
      6 ≤ password.length → password.length ≤ MAX_INPUT_STRING_LENGTH →
      (∀ u ∈ users, u.email ≠ email) →
      register_user users next_id hash ⟨some email, some password⟩ =
        (⟨201, .obj (.cons "message" (.str "User registered successfully")
          (.cons "user_id" (.num next_id) .nil))⟩,
          users ++ [⟨next_id, email, hash password⟩]) ∧
      register_user (users ++ [⟨next_id, email, hash password⟩]) next_id2 hash
          ⟨some email, some password⟩ =
        (make_error_response "Email already registered" 409 none,
          users ++ [⟨next_id, email, hash password⟩])) ∧
    (∀ (hash : String → String) (s : AppState), Reachable hash s →
      s.users.Pairwise (fun a b => a.email ≠ b.email)) := by
  refine ⟨?_, ?_, reachable_emails_unique⟩
  · intro users next_id hash email password u hv hle hp6 hpl hmem heq
    have hsome : (users.find? (fun x => x.email == email)).isSome := by
      rw [List.find?_isSome]
      exact ⟨u, hmem, by simp [heq]⟩
    rcases hfind : users.find? (fun x => x.email == email) with _ | u2
    · rw [hfind] at hsome; simp at hsome
    · exact register_user_dup users next_id hash email password u2 hv hle hp6 hpl hfind
  · intro users next_id next_id2 hash email password hv hle hp6 hpl hnew
    have hfind : users.find? (fun x => x.email == email) = none := by
      rw [List.find?_eq_none]
      intro x hx
      simpa using hnew x hx
    refine ⟨register_user_fresh users next_id hash email password hv hle hp6 hpl hfind, ?_⟩
    have hfind2 : (users ++ [(⟨next_id, email, hash password⟩ : UserRec)]).find?
        (fun x => x.email == email) = some ⟨next_id, email, hash password⟩ := by
      have hff : List.find? (fun x : UserRec => x.email == email)
          (users ++ (⟨next_id, email, hash password⟩ : UserRec) :: []) =
          some ⟨next_id, email, hash password⟩ :=
        find?_first users ⟨next_id, email, hash password⟩ []
          (fun b hb => by simpa using hnew b hb) (by simp)
      simpa using hff
    exact register_user_dup _ next_id2 hash email password _ hv hle hp6 hpl hfind2

/-- Witness for C8: registering `a@b.com` twice from the empty store yields
201 then 409, and the initial state satisfies the uniqueness invariant. -/
theorem claim_C8_witness :
    register_user [] 1 (fun s => s) ⟨some "a@b.com", some "secret1"⟩ =
      (⟨201, .obj (.cons "message" (.str "User registered successfully")
        (.cons "user_id" (.num 1) .nil))⟩, [⟨1, "a@b.com", "secret1"⟩]) ∧
    register_user [⟨1, "a@b.com", "secret1"⟩] 2 (fun s => s)
        ⟨some "a@b.com", some "secret1"⟩ =
      (make_error_response "Email already registered" 409 none,
        [⟨1, "a@b.com", "secret1"⟩]) ∧
    initState.users.Pairwise (fun a b => a.email ≠ b.email) := by
  have hv : is_valid_email "a@b.com" = true := by decide
  have hlp : 6 ≤ ("secret1" : String).length := by decide
  have h2 := (claim_C8_email_uniqueness).2.1 [] 1 2 (fun s => s) "a@b.com" "secret1"
    hv (by decide) hlp (by decide) (by intro u hu; simp at hu)
  have h3 := (claim_C8_email_uniqueness).2.2 (fun s => s) initState Reachable.init
  exact ⟨by simpa using h2.1, by simpa using h2.2, h3⟩

/-- Claim C6: an upload whose filename fails the extension allow-list yields
400 on both AI endpoints and text extraction is never attempted (the event
trace of the request is empty). -/
theorem claim_C6_bad_extension_no_extraction (cfg : AiConfig) (f : FileUpload)
    (target_role : String)
    (hext : allowed_file f.filename cfg.allowed_extensions = false) :
    ((analyze_resume_route cfg ⟨some f, target_role⟩).1.status = 400 ∧
      (analyze_resume_route cfg ⟨some f, target_role⟩).2 = []) ∧
    ((suggest_roles_route cfg ⟨some f⟩).1.status = 400 ∧
      (suggest_roles_route cfg ⟨some f⟩).2 = []) := by
  by_cases hfn : f.filename = ""
  · have ha : analyze_resume_route cfg ⟨some f, target_role⟩ =
        (make_error_response "No file selected for upload" 400 none, []) := by
      simp [analyze_resume_route, hfn]
    have hb : suggest_roles_route cfg ⟨some f⟩ =
        (make_error_response "No file selected for upload" 400 none, []) := by
      simp [suggest_roles_route, hfn]
    rw [ha, hb]
    simp [make_error_response]
  · have ha : analyze_resume_route cfg ⟨some f, target_role⟩ =
        (make_error_response ("Invalid file type. Allowed types: " ++
          String.intercalate ", " cfg.allowed_extensions) 400 none, []) := by
      simp [analyze_resume_route, hfn, hext]
    have hb : suggest_roles_route cfg ⟨some f⟩ =
        (make_error_response ("Invalid file type. Allowed types: " ++
          String.intercalate ", " cfg.allowed_extensions) 400 none, []) := by
      simp [suggest_roles_route, hfn, hext]
    rw [ha, hb]
    simp [make_error_response]

/-- Witness for C6: a `.exe` upload is rejected with 400 and no extraction
event on both endpoints. -/
theorem claim_C6_witness :
    ((analyze_resume_route ⟨["pdf", "docx", "txt"], 1000, 10, none⟩
        ⟨some ⟨"virus.exe", [65], none, none⟩, "Engineer"⟩).1.status = 400 ∧
      (analyze_resume_route ⟨["pdf", "docx", "txt"], 1000, 10, none⟩
        ⟨some ⟨"virus.exe", [65], none, none⟩, "Engineer"⟩).2 = []) ∧
    ((suggest_roles_route ⟨["pdf", "docx", "txt"], 1000, 10, none⟩
        ⟨some ⟨"virus.exe", [65], none, none⟩⟩).1.status = 400 ∧
      (suggest_roles_route ⟨["pdf", "docx", "txt"], 1000, 10, none⟩
        ⟨some ⟨"virus.exe", [65], none, none⟩⟩).2 = []) :=
  claim_C6_bad_extension_no_extraction ⟨["pdf", "docx", "txt"], 1000, 10, none⟩
    ⟨"virus.exe", [65], none, none⟩ "Engineer" (by decide)

theorem generate_ai_content_error_status (g : Option CallOutcome) (e : AIServiceErrorV)
    (h : generate_ai_content g = .error e) : e.status_code = 503 ∨ e.status_code = 500 := by
  rcases g with _ | oc
  · simp [generate_ai_content, aiServiceUnavailable] at h
    rw [← h]
    left; rfl
  · rcases oc with ex | resp
    · simp [generate_ai_content, aiContentGenerationError] at h
      rw [← h]
      right; rfl
    · simp only [generate_ai_content] at h
      rcases htry : generate_ai_content_try_body resp with t | e2 <;> rw [htry] at h
      · simp only [Except.error.injEq] at h
        rw [← h]
        right; rfl
      · simp at h

theorem analyze_ai_stage_status_ne_413 (cfg : AiConfig) :
    (analyze_resume_ai_stage cfg).status ≠ 413 := by
  unfold analyze_resume_ai_stage
  rcases hg : generate_ai_content cfg.gemini_model_instance with e | t
  · rcases generate_ai_content_error_status _ _ hg with h | h <;>
      simp [ai_failure_response, make_error_response, h]
  · simp

theorem suggest_ai_stage_status_ne_413 (cfg : AiConfig) :
    (suggest_roles_ai_stage cfg).status ≠ 413 := by
  unfold suggest_roles_ai_stage
  rcases hg : generate_ai_content cfg.gemini_model_instance with e | t
  · rcases generate_ai_content_error_status _ _ hg with h | h <;>
      simp [ai_failure_response, make_error_response, h]
  · simp

theorem analyze_after_size_status_ne_413 (cfg : AiConfig) (f : FileUpload)
    (target_role : String) :
    (analyze_resume_after_size cfg f target_role).1.status ≠ 413 := by
  unfold analyze_resume_after_size
  by_cases h1 : target_role = ""
  · simp [h1, make_error_response]
  by_cases h2 : MAX_TARGET_ROLE_LENGTH < target_role.length
  · simp [h1, h2, make_error_response]
  rcases hx : extract_text_from_file f with _ | t
  · simp [h1, h2, hx, make_error_response]
  · simp [h1, h2, hx, analyze_ai_stage_status_ne_413 cfg]

theorem suggest_after_size_status_ne_413 (cfg : AiConfig) (f : FileUpload) :
    (suggest_roles_after_size cfg f).1.status ≠ 413 := by
  unfold suggest_roles_after_size
  rcases hx : extract_text_from_file f with _ | t
  · simp [hx, make_error_response]
  · simp [hx, suggest_ai_stage_status_ne_413 cfg]

/-- Claim C7: an upload whose byte length equals the configured maximum
passes the size check (the request continues with the post-size stages and
can never answer 413), while one byte over the maximum yields 413 on both
AI endpoints. -/
theorem claim_C7_size_boundary (cfg : AiConfig) (f : FileUpload) (target_role : String)
    (hfn : f.filename ≠ "")
    (hext : allowed_file f.filename cfg.allowed_extensions = true) :
    (f.content.length = cfg.max_file_size_bytes →
      analyze_resume_route cfg ⟨some f, target_role⟩ =
        analyze_resume_after_size cfg f target_role ∧
      (analyze_resume_route cfg ⟨some f, target_role⟩).1.status ≠ 413 ∧
      suggest_roles_route cfg ⟨some f⟩ = suggest_roles_after_size cfg f ∧
      (suggest_roles_route cfg ⟨some f⟩).1.status ≠ 413) ∧
    (f.content.length = cfg.max_file_size_bytes + 1 →
      analyze_resume_route cfg ⟨some f, target_role⟩ =
        (make_error_response
          ("File exceeds maximum size of " ++ toString cfg.max_file_size_mb ++ "MB")
          413 none, []) ∧
      suggest_roles_route cfg ⟨some f⟩ =
        (make_error_response
          ("File exceeds maximum size of " ++ toString cfg.max_file_size_mb ++ "MB")
          413 none, [])) := by
  constructor
  · intro hsz
    have hnot : ¬ (cfg.max_file_size_bytes < f.content.length) := by omega
    have e1 : analyze_resume_route cfg ⟨some f, target_role⟩ =
        analyze_resume_after_size cfg f target_role := by
      simp [analyze_resume_route, hfn, hext, hnot]
    have e2 : suggest_roles_route cfg ⟨some f⟩ = suggest_roles_after_size cfg f := by
      simp [suggest_roles_route, hfn, hext, hnot]
    refine ⟨e1, ?_, e2, ?_⟩
    · rw [e1]; exact analyze_after_size_status_ne_413 cfg f target_role
    · rw [e2]; exact suggest_after_size_status_ne_413 cfg f
  · intro hsz
    have hover : cfg.max_file_size_bytes < f.content.length := by omega
    constructor
    · simp [analyze_resume_route, hfn, hext, hover]
    · simp [suggest_roles_route, hfn, hext, hover]

/-- Witness for C7: with a 4-byte limit, a 4-byte `.txt` upload proceeds past
the size check on both endpoints and a 5-byte one is rejected with 413. -/
theorem claim_C7_witness :
    (analyze_resume_route ⟨["pdf", "docx", "txt"], 4, 10, none⟩
        ⟨some ⟨"r.txt", [97, 98, 99, 100], none, none⟩, "Engineer"⟩ =
      analyze_resume_after_size ⟨["pdf", "docx", "txt"], 4, 10, none⟩
        ⟨"r.txt", [97, 98, 99, 100], none, none⟩ "Engineer" ∧
      (analyze_resume_route ⟨["pdf", "docx", "txt"], 4, 10, none⟩
        ⟨some ⟨"r.txt", [97, 98, 99, 100], none, none⟩, "Engineer"⟩).1.status ≠ 413 ∧
      suggest_roles_route ⟨["pdf", "docx", "txt"], 4, 10, none⟩
        ⟨some ⟨"r.txt", [97, 98, 99, 100], none, none⟩⟩ =
        suggest_roles_after_size ⟨["pdf", "docx", "txt"], 4, 10, none⟩
          ⟨"r.txt", [97, 98, 99, 100], none, none⟩ ∧
      (suggest_roles_route ⟨["pdf", "docx", "txt"], 4, 10, none⟩
        ⟨some ⟨"r.txt", [97, 98, 99, 100], none, none⟩⟩).1.status ≠ 413) ∧
    (analyze_resume_route ⟨["pdf", "docx", "txt"], 4, 10, none⟩
        ⟨some ⟨"r.txt", [97, 98, 99, 100, 101], none, none⟩, "Engineer"⟩ =
      (make_error_response "File exceeds maximum size of 10MB" 413 none, []) ∧
      suggest_roles_route ⟨["pdf", "docx", "txt"], 4, 10, none⟩
        ⟨some ⟨"r.txt", [97, 98, 99, 100, 101], none, none⟩⟩ =
      (make_error_response "File exceeds maximum size of 10MB" 413 none, [])) := by
  constructor
  · exact (claim_C7_size_boundary ⟨["pdf", "docx", "txt"], 4, 10, none⟩
      ⟨"r.txt", [97, 98, 99, 100], none, none⟩ "Engineer" (by decide) (by decide)).1 rfl
  · exact (claim_C7_size_boundary ⟨["pdf", "docx", "txt"], 4, 10, none⟩
      ⟨"r.txt", [97, 98, 99, 100, 101], none, none⟩ "Engineer" (by decide) (by decide)).2 rfl

/-- Claim C10: when extraction yields the empty string (which is not the
declined outcome), both endpoints proceed to the AI call with the empty
resume text inserted in the prompt; a zero-byte `.txt` file and a PDF whose
pages yield no text are such cases. -/
theorem claim_C10_empty_extraction_proceeds (cfg : AiConfig) (f : FileUpload)
    (target_role : String)
    (hfn : f.filename ≠ "")
    (hext : allowed_file f.filename cfg.allowed_extensions = true)
    (hsize : f.content.length ≤ cfg.max_file_size_bytes)
    (hrole : target_role ≠ "") (hrolelen : target_role.length ≤ MAX_TARGET_ROLE_LENGTH)
    (hempty : extract_text_from_file f = some "") :
    analyze_resume_route cfg ⟨some f, target_role⟩ =
      (analyze_resume_ai_stage cfg,
        [.extractionAttempt f.filename,
          .aiCallAttempt (get_resume_feedback_prompt target_role "")]) ∧
    suggest_roles_route cfg ⟨some f⟩ =
      (suggest_roles_ai_stage cfg,
        [.extractionAttempt f.filename, .aiCallAttempt (get_role_suggestion_prompt "")]) ∧
    extract_text_from_file ⟨"resume.txt", [], none, none⟩ = some "" ∧
    (∀ (content : List Nat),
      extract_text_from_file ⟨"resume.pdf", content, some [none, some ""], none⟩ = some "") := by
  have hnot : ¬ (cfg.max_file_size_bytes < f.content.length) := by omega
  have hnl : ¬ (MAX_TARGET_ROLE_LENGTH < target_role.length) := by omega
  refine ⟨?_, ?_, by decide, fun content => ?_⟩
  · simp [analyze_resume_route, hfn, hext, hnot, analyze_resume_after_size, hrole, hnl, hempty]
  · simp [suggest_roles_route, hfn, hext, hnot, suggest_roles_after_size, hempty]
  · have h1 : pyEndsWith "resume.pdf" ".pdf" = true := by decide
    simp [extract_text_from_file, h1, String.join]

/-- Witness for C10: a zero-byte `.txt` upload proceeds to the AI call with
the empty resume text in the prompt on both endpoints. -/
theorem claim_C10_witness :
    analyze_resume_route ⟨["pdf", "docx", "txt"], 1000, 10, none⟩
        ⟨some ⟨"resume.txt", [], none, none⟩, "Engineer"⟩ =
      (analyze_resume_ai_stage ⟨["pdf", "docx", "txt"], 1000, 10, none⟩,
        [.extractionAttempt "resume.txt",
          .aiCallAttempt (get_resume_feedback_prompt "Engineer" "")]) ∧
    suggest_roles_route ⟨["pdf", "docx", "txt"], 1000, 10, none⟩
        ⟨some ⟨"resume.txt", [], none, none⟩⟩ =
      (suggest_roles_ai_stage ⟨["pdf", "docx", "txt"], 1000, 10, none⟩,
        [.extractionAttempt "resume.txt",
          .aiCallAttempt (get_role_suggestion_prompt "")]) := by
  have hfn : ("resume.txt" : String) ≠ "" := by decide
  have hal : allowed_file "resume.txt" ["pdf", "docx", "txt"] = true := by decide
  have hsz : ([] : List Nat).length ≤ 1000 := by decide
  have hro : ("Engineer" : String) ≠ "" := by decide
  have hrl : ("Engineer" : String).length ≤ MAX_TARGET_ROLE_LENGTH := by decide
  have hxt : extract_text_from_file ⟨"resume.txt", [], none, none⟩ = some "" := by decide
  have h := claim_C10_empty_extraction_proceeds ⟨["pdf", "docx", "txt"], 1000, 10, none⟩
    ⟨"resume.txt", [], none, none⟩ "Engineer" hfn hal hsz hro hrl hxt
  exact ⟨h.1, h.2.1⟩

theorem toNat_ofNat_valid {n : Nat} (hval : Nat.isValidChar n) : (Char.ofNat n).toNat = n := by
  unfold Char.ofNat
  rw [dif_pos hval]
  simp [Char.ofNatAux, Char.toNat, UInt32.toNat, BitVec.toNat_ofNatLt]

theorem toLower_toNat (c : Char) :
    (Char.toLower c).toNat =
      if c.toNat ≥ 65 ∧ c.toNat ≤ 90 then c.toNat + 32 else c.toNat := by
  unfold Char.toLower
  by_cases h : c.toNat ≥ 65 ∧ c.toNat ≤ 90
  · have hv : (c.toNat + 32).isValidChar := by
      unfold Nat.isValidChar; omega
    simp [h, toNat_ofNat_valid hv]
  · simp [h]

theorem toNat_inj {a b : Char} (h : a.toNat = b.toNat) : a = b := by
  have := Char.ofNat_toNat a
  rw [← this, h, Char.ofNat_toNat]

theorem toLower_eq_dot_iff (c : Char) : Char.toLower c = '.' ↔ c = '.' := by
  constructor
  · intro h
    have ht : (Char.toLower c).toNat = 46 := by rw [h]; rfl
    rw [toLower_toNat] at ht
    by_cases hc : c.toNat ≥ 65 ∧ c.toNat ≤ 90
    · rw [if_pos hc] at ht; omega
    · rw [if_neg hc] at ht
      exact toNat_inj ht
  · intro h; subst h; rfl

theorem toLower_idem (c : Char) : Char.toLower (Char.toLower c) = Char.toLower c := by
  apply toNat_inj
  rw [toLower_toNat, toLower_toNat]
  split_ifs <;> omega

theorem contains_dot_map_toLower (l : List Char) :
    (l.map Char.toLower).contains '.' = l.contains '.' := by
  induction l with
  | nil => rfl
  | cons c t ih =>
    simp only [List.map_cons, List.contains_cons, ih]
    by_cases hc : c = '.'
    · subst hc; rfl
    · have h2 : Char.toLower c ≠ '.' := fun hh => hc ((toLower_eq_dot_iff c).mp hh)
      have b1 : ('.' == Char.toLower c) = false := by
        simpa using fun hh => h2 hh.symm
      have b2 : ('.' == c) = false := by
        simpa using fun hh => hc hh.symm
      rw [b1, b2]

theorem rsplitExt_map_toLower (l : List Char) :
    rsplitExt (l.map Char.toLower) = (rsplitExt l).map Char.toLower := by
  unfold rsplitExt
  rw [← List.map_reverse, List.takeWhile_map, ← List.map_reverse]
  have hp : ((fun c => decide (c ≠ '.')) ∘ Char.toLower) =
      (fun c : Char => decide (c ≠ '.')) := by
    funext c
    simp only [Function.comp]
    exact decide_eq_decide.mpr (not_congr (toLower_eq_dot_iff c))
  rw [hp]

theorem map_toLower_idem (l : List Char) :
    (l.map Char.toLower).map Char.toLower = l.map Char.toLower := by
  rw [List.map_map]
  apply List.map_congr_left
  intro c _
  exact toLower_idem c

/-- Claim C9: the allow-list check lowercases the extension before comparing
(so it is insensitive to the filename's letter case), while the extraction
dispatch matches the suffix case-sensitively; consequently `resume.TXT`
passes the allow-list but extraction declines and the endpoint answers 400
with the extraction error. -/
theorem claim_C9_extension_case_inconsistency :
    (∀ (filename : String) (exts : List String),
      allowed_file filename exts = allowed_file (strLower filename) exts) ∧
    allowed_file "resume.TXT" ["pdf", "docx", "txt"] = true ∧
    (∀ (content : List Nat) (pdf : Option (List (Option String)))
        (docx : Option (List String)),
      extract_text_from_file ⟨"resume.TXT", content, pdf, docx⟩ = none) ∧
    analyze_resume_route ⟨["pdf", "docx", "txt"], 1000, 10, none⟩
        ⟨some ⟨"resume.TXT", [65], none, none⟩, "Engineer"⟩ =
      (make_error_response
        "Could not extract text from file. It might be corrupted or an unsupported format variant."
        400 none, [.extractionAttempt "resume.TXT"]) := by
  refine ⟨?_, by decide, ?_, ?_⟩
  · intro filename exts
    unfold allowed_file strLower
    have hd : (String.mk (filename.data.map Char.toLower)).data =
        filename.data.map Char.toLower := rfl
    rw [hd, contains_dot_map_toLower, rsplitExt_map_toLower]
    have he : (String.mk ((rsplitExt filename.data).map Char.toLower)).data =
        (rsplitExt filename.data).map Char.toLower := rfl
    rw [he, map_toLower_idem]
  · intro content pdf docx
    have h1 : pyEndsWith "resume.TXT" ".pdf" = false := by decide
    have h2 : pyEndsWith "resume.TXT" ".docx" = false := by decide
    have h3 : pyEndsWith "resume.TXT" ".txt" = false := by decide
    simp [extract_text_from_file, h1, h2, h3]
  · have hx : extract_text_from_file ⟨"resume.TXT", [65], none, none⟩ = none := by
      have h1 : pyEndsWith "resume.TXT" ".pdf" = false := by decide
      have h2 : pyEndsWith "resume.TXT" ".docx" = false := by decide
      have h3 : pyEndsWith "resume.TXT" ".txt" = false := by decide
      simp [extract_text_from_file, h1, h2, h3]
    have hext : allowed_file "resume.TXT" ["pdf", "docx", "txt"] = true := by decide
    simp [analyze_resume_route, hext, analyze_resume_after_size, hx]
    decide

theorem txt_not_pdf_docx {s : String} (h : pyEndsWith s ".txt" = true) :
    pyEndsWith s ".pdf" = false ∧ pyEndsWith s ".docx" = false := by
  unfold pyEndsWith at h ⊢
  generalize s.data.reverse = r at h ⊢
  rcases r with _ | ⟨c, r⟩
  · simp [List.isPrefixOf] at h
  · simp only [List.isPrefixOf, Bool.and_eq_true] at h
    obtain ⟨hc, _⟩ := h
    have hct : c = 't' := by
      have h2 : ('t' : Char) = c := beq_iff_eq.mp hc
      exact h2.symm
    subst hct
    constructor <;> simp [List.isPrefixOf]

/-- Counterexample to claim C5 as stated: decoding the undecodable byte
`0xFF` in a `.txt` upload contributes no replacement character — the byte is
dropped and extraction yields the empty string. -/
theorem claim_C5_counterexample :
    extract_text_from_file ⟨"resume.txt", [255], none, none⟩ = some "" ∧
    Char.ofNat 65533 ∉ utf8DecodeIgnore [255] := by
  exact ⟨by decide, by decide⟩

/-- Claim C5 (amended): extracting text from a `.txt` upload always succeeds,
decoding the bytes as UTF-8 with undecodable bytes dropped (ignored) rather
than replaced; the declined outcome is never returned for a `.txt` input on
decoding grounds. -/
theorem claim_C5_txt_decode_ignores (f : FileUpload)
    (h : pyEndsWith f.filename ".txt" = true) :
    extract_text_from_file f = some (String.mk (utf8DecodeIgnore f.content)) := by
  obtain ⟨h1, h2⟩ := txt_not_pdf_docx h
  simp [extract_text_from_file, h1, h2, h]

/-- Witness for C5 (amended) on a concrete `.txt` upload with a trailing
undecodable byte. -/
theorem claim_C5_witness :
    extract_text_from_file ⟨"notes.txt", [104, 105, 255], none, none⟩ =
      some (String.mk (utf8DecodeIgnore [104, 105, 255])) :=
  claim_C5_txt_decode_ignores ⟨"notes.txt", [104, 105, 255], none, none⟩ (by decide)

/-- Claim C4, evaluated on the code at the failing input: when the model
reports a safety block (no usable text, block reason supplied), the try
block of `generate_ai_content` builds the intended error naming the reason,
but the function's own `except Exception` clause catches that very error and
replaces it, so the 500 response the AI endpoints return carries only the
generic message, which does not include the supplied safety block reason. -/
theorem claim_C4_safety_block_reason_lost :
    generate_ai_content_try_body ⟨[], none, some ⟨some "SAFETY", some "Blocked by safety policy"⟩⟩ =
      .error (aiContentGenerationError
        "Content generation blocked by AI safety filters: Blocked by safety policy") ∧
    containsSeq
      "Content generation blocked by AI safety filters: Blocked by safety policy".data
      "Blocked by safety policy".data = true ∧
    generate_ai_content
        (some (.returned ⟨[], none, some ⟨some "SAFETY", some "Blocked by safety policy"⟩⟩)) =
      .error (aiContentGenerationError
        "AI content generation encountered an error: AIContentGenerationError") ∧
    analyze_resume_ai_stage
        ⟨["pdf", "docx", "txt"], 1000, 10,
          some (.returned ⟨[], none, some ⟨some "SAFETY", some "Blocked by safety policy"⟩⟩)⟩ =
      ⟨500, .obj (.cons "error"
        (.str "AI content generation encountered an error: AIContentGenerationError") .nil)⟩ ∧
    containsSeq
      "AI content generation encountered an error: AIContentGenerationError".data
      "Blocked by safety policy".data = false := by
  refine ⟨by rfl, by decide, by rfl, by rfl, by decide⟩

theorem jElemsToList_ofList (l : List JVal) : jElemsToList (jElemsOfList l) = l := by
  induction l with
  | nil => rfl
  | cons v t ih => simp [jElemsOfList, jElemsToList, ih]

/-- Counterexample to claim C2 as stated: saving a path with the
path-details field absent and listing it back yields a record whose JSON
object still contains the `path_details_json` key, bound to `null` — the
field appears as null instead of round-tripping to absent. -/
theorem claim_C2_counterexample :
    (save_career_path_route [⟨1, "a@b.com", "h"⟩] [] 1 1 (some ⟨some "X", none⟩)).1.status
      = 201 ∧
    get_user_paths_route [⟨1, "a@b.com", "h"⟩]
        (save_career_path_route [⟨1, "a@b.com", "h"⟩] [] 1 1 (some ⟨some "X", none⟩)).2 1 =
      ⟨200, .arr (.cons (.obj (.cons "id" (.num 1) (.cons "path_name" (.str "X")
        (.cons "path_details_json" .null (.cons "user_id" (.num 1) .nil))))) .nil)⟩ ∧
    JMembs.hasKey (SavedPathRec.to_dict ⟨1, "X", none, 1⟩) "path_details_json" = true ∧
    JMembs.lookup (SavedPathRec.to_dict ⟨1, "X", none, 1⟩) "path_details_json" =
      some JVal.null :=
  ⟨rfl, rfl, rfl, rfl⟩

/-- Claim C2 (amended): saving a path with `path_details_json` set to a JSON
value `v` and then listing via the user's path list returns, for that
record, a `path_details_json` value deep-equal to `v`; a null or absent
value round-trips to a field that is present with value JSON `null` (rather
than absent), and deserialization failure of the stored text surfaces the
field as `null` rather than erroring. -/
theorem claim_C2_path_details_round_trip (users : List UserRec)
    (paths : List SavedPathRec) (next_path_id current_user_id : Nat)
    (path_name : String) (v : JVal) (u : UserRec)
    (hu : users.find? (fun x => x.id == current_user_id) = some u)
    (hn : path_name ≠ "") (hnl : path_name.length ≤ MAX_PATH_NAME_LENGTH) :
    ((save_career_path_route users paths next_path_id current_user_id
        (some ⟨some path_name, some v⟩)).1.status = 201 ∧
      (save_career_path_route users paths next_path_id current_user_id
        (some ⟨some path_name, some v⟩)).2 =
        paths ++ [⟨next_path_id, path_name, some (dumps v), current_user_id⟩] ∧
      JMembs.lookup (SavedPathRec.to_dict
          ⟨next_path_id, path_name, some (dumps v), current_user_id⟩)
        "path_details_json" = some v ∧
      (get_user_paths_route users
        (save_career_path_route users paths next_path_id current_user_id
          (some ⟨some path_name, some v⟩)).2 current_user_id).status = 200 ∧
      JVal.obj (SavedPathRec.to_dict
          ⟨next_path_id, path_name, some (dumps v), current_user_id⟩) ∈
        arrElemsOf (get_user_paths_route users
          (save_career_path_route users paths next_path_id current_user_id
            (some ⟨some path_name, some v⟩)).2 current_user_id).body) ∧
    ((save_career_path_route users paths next_path_id current_user_id
        (some ⟨some path_name, none⟩)).2 =
        paths ++ [⟨next_path_id, path_name, none, current_user_id⟩] ∧
      JMembs.lookup (SavedPathRec.to_dict ⟨next_path_id, path_name, none, current_user_id⟩)
        "path_details_json" = some JVal.null ∧
      JMembs.hasKey (SavedPathRec.to_dict ⟨next_path_id, path_name, none, current_user_id⟩)
        "path_details_json" = true) ∧
    (∀ (r : SavedPathRec) (stored : String), r._path_details_json = some stored →
      loads stored = none →
      JMembs.lookup r.to_dict "path_details_json" = some JVal.null) := by
  have hnlt : ¬ (MAX_PATH_NAME_LENGTH < path_name.length) := by omega
  have hsave : save_career_path_route users paths next_path_id current_user_id
      (some ⟨some path_name, some v⟩) =
      (⟨201, .obj (.cons "message" (.str "Career path saved successfully")
        (.cons "path_id" (.num next_path_id) .nil))⟩,
        paths ++ [⟨next_path_id, path_name, some (dumps v), current_user_id⟩]) := by
    simp [save_career_path_route, truthyStr, hn, hnlt, hu, path_details_setter]
  have hsave0 : save_career_path_route users paths next_path_id current_user_id
      (some ⟨some path_name, none⟩) =
      (⟨201, .obj (.cons "message" (.str "Career path saved successfully")
        (.cons "path_id" (.num next_path_id) .nil))⟩,
        paths ++ [⟨next_path_id, path_name, none, current_user_id⟩]) := by
    simp [save_career_path_route, truthyStr, hn, hnlt, hu, path_details_setter]
  have hlook : JMembs.lookup (SavedPathRec.to_dict
      ⟨next_path_id, path_name, some (dumps v), current_user_id⟩)
      "path_details_json" = some v := by
    simp [SavedPathRec.to_dict, JMembs.lookup, path_details_getter, loads_dumps v, pyToJson]
  refine ⟨⟨by rw [hsave], by rw [hsave], hlook, ?_, ?_⟩, ⟨by rw [hsave0], by rfl, by rfl⟩, ?_⟩
  · rw [hsave]
    simp [get_user_paths_route, hu]
  · rw [hsave]
    simp only [get_user_paths_route, hu]
    rw [arrElemsOf, jElemsToList_ofList]
    apply List.mem_map_of_mem
    rw [List.mem_filter]
    refine ⟨List.mem_append.mpr (Or.inr (by simp)), by simp⟩
  · intro r stored hstored hfail
    simp [SavedPathRec.to_dict, JMembs.lookup, path_details_getter, hstored, hfail, pyToJson]

/-- Witness for C2 (amended) on the spec's concrete scenario: saving
`path_name "X"` with details `{"k": 1}` for user 1 and listing it back
returns the details deep-equal, and a stored text that fails to deserialize
surfaces as null. -/
theorem claim_C2_witness :
    ((save_career_path_route [⟨1, "a@b.com", "h"⟩] [] 1 1
        (some ⟨some "X", some (.obj (.cons "k" (.num 1) .nil))⟩)).1.status = 201 ∧
      (save_career_path_route [⟨1, "a@b.com", "h"⟩] [] 1 1
        (some ⟨some "X", some (.obj (.cons "k" (.num 1) .nil))⟩)).2 =
        [] ++ [⟨1, "X", some (dumps (.obj (.cons "k" (.num 1) .nil))), 1⟩] ∧
      JMembs.lookup (SavedPathRec.to_dict
          ⟨1, "X", some (dumps (.obj (.cons "k" (.num 1) .nil))), 1⟩)
        "path_details_json" = some (.obj (.cons "k" (.num 1) .nil)) ∧
      (get_user_paths_route [⟨1, "a@b.com", "h"⟩]
        (save_career_path_route [⟨1, "a@b.com", "h"⟩] [] 1 1
          (some ⟨some "X", some (.obj (.cons "k" (.num 1) .nil))⟩)).2 1).status = 200 ∧
      JVal.obj (SavedPathRec.to_dict
          ⟨1, "X", some (dumps (.obj (.cons "k" (.num 1) .nil))), 1⟩) ∈
        arrElemsOf (get_user_paths_route [⟨1, "a@b.com", "h"⟩]
          (save_career_path_route [⟨1, "a@b.com", "h"⟩] [] 1 1
            (some ⟨some "X", some (.obj (.cons "k" (.num 1) .nil))⟩)).2 1).body) ∧
    JMembs.lookup (SavedPathRec.to_dict ⟨5, "Y", some "\x7b", 1⟩) "path_details_json" =
      some JVal.null := by
  have h := claim_C2_path_details_round_trip [⟨1, "a@b.com", "h"⟩] [] 1 1 "X"
    (.obj (.cons "k" (.num 1) .nil)) ⟨1, "a@b.com", "h"⟩ (by rfl) (by decide) (by decide)
  exact ⟨h.1, h.2.2 ⟨5, "Y", some "\x7b", 1⟩ "\x7b" rfl (by rfl)⟩

end Aspiro
